import Mathlib

/-!
# Form validation (`static/js/validation.js`)

A shallow embedding of the three client-side validators
(`validateRegistrationForm`, `validateLoginForm`, `validateAddLotForm`), of
their two DOM helpers (`showError`, `clearFormErrors`) and of the submit
listeners bound on `DOMContentLoaded`.

* Field values are strings of Unicode characters.  `String.prototype.trim`,
  `String.prototype.length` (counted in UTF-16 code units), the regular
  expression `/^[1-9][0-9]{5}$/` and the coercion performed by `value <= 0`
  (`StringToNumber`, then the comparison of doubles with zero) are modelled
  after ECMAScript.
* The document is a forest of elements carrying the attributes the script
  touches: `id`, `classList`, `value`, `textContent` and the child list.
* A validator returns `none` where the script stops with an exception, and
  otherwise its boolean together with the document it leaves behind.  The value
  of an element that is no form control is `undefined`: a read followed by
  `trim()` raises an exception on it, a plain read goes on with it.
-/

namespace Validation

/-! ## Strings -/

/-- ECMAScript `WhiteSpace` and `LineTerminator` code points: the characters
removed by `String.prototype.trim` and skipped around a numeric string. -/
def isWhiteSpace (c : Char) : Bool :=
  let n := c.toNat
  n == 0x09 || n == 0x0A || n == 0x0B || n == 0x0C || n == 0x0D || n == 0x20 ||
  n == 0xA0 || n == 0x1680 || (0x2000 ≤ n && n ≤ 0x200A) || n == 0x2028 ||
  n == 0x2029 || n == 0x202F || n == 0x205F || n == 0x3000 || n == 0xFEFF

/-- Characters of a string with leading and trailing white space removed. -/
def trimChars (cs : List Char) : List Char :=
  ((cs.dropWhile isWhiteSpace).reverse.dropWhile isWhiteSpace).reverse

/-- `String.prototype.trim`. -/
def jsTrim (s : String) : String := ⟨trimChars s.data⟩

/-- Number of UTF-16 code units that encode a character. -/
def utf16Units (c : Char) : Nat := if c.toNat < 0x10000 then 1 else 2

/-- `String.prototype.length`: the number of UTF-16 code units. -/
def jsLength (s : String) : Nat := (s.data.map utf16Units).sum

/-! ## The pincode pattern -/

/-- The fragment of regular expressions used by the script: a character class
given by one range, concatenation, and bounded repetition `r{n}`. -/
inductive Regex where
  | range (lo hi : Char)
  | seq (r s : Regex)
  | times (r : Regex) (n : Nat)

/-- Apply a matcher `n` times in sequence. -/
def iterate (f : List Char → Option (List Char)) : Nat → List Char → Option (List Char)
  | 0, cs => some cs
  | n + 1, cs => (f cs).bind (iterate f n)

/-- Match a regular expression at the start of the input and return what is left
of the input.  Every expression of this fragment matches in at most one way. -/
def Regex.strip : Regex → List Char → Option (List Char)
  | .range _ _, [] => none
  | .range lo hi, c :: cs => if lo ≤ c ∧ c ≤ hi then some cs else none
  | .seq r s, cs => (r.strip cs).bind s.strip
  | .times r n, cs => iterate r.strip n cs

/-- Outcome of `/^r$/.test(s)`: the whole string matches `r`. -/
def Regex.test (r : Regex) (s : String) : Bool := r.strip s.data == some []

/-- The body of `/^[1-9][0-9]{5}$/`. -/
def pincodePattern : Regex := .seq (.range '1' '9') (.times (.range '0' '9') 5)

/-! ## Comparing a string with the number 0 -/

/-- Result of `StringToNumber`: the exact mathematical value of the literal,
kept as sign, decimal mantissa and decimal exponent, or one of the special
values. -/
inductive JSNumber where
  | nan
  | infinity (negative : Bool)
  | finite (negative : Bool) (mantissa : Nat) (exponent : Int)
  deriving DecidableEq, Repr

/-- Value of a digit character in a radix up to 16, if it is one. -/
def digitValue (radix : Nat) (c : Char) : Option Nat :=
  let n := c.toNat
  let v := if 48 ≤ n ∧ n ≤ 57 then some (n - 48)
    else if 97 ≤ n ∧ n ≤ 102 then some (n - 87)
    else if 65 ≤ n ∧ n ≤ 70 then some (n - 55)
    else none
  v.bind fun d => if d < radix then some d else none

/-- Value of a non-empty run of digits in the given radix. -/
def digitsValue (radix : Nat) : List Char → Option Nat
  | [] => none
  | cs => cs.foldl (fun acc c => acc.bind fun a => (digitValue radix c).map fun d => radix * a + d)
      (some 0)

/-- `SignedInteger`: decimal digits with an optional sign. -/
def parseSignedInteger : List Char → Option Int
  | '+' :: ds => (digitsValue 10 ds).map Int.ofNat
  | '-' :: ds => (digitsValue 10 ds).map fun n => - Int.ofNat n
  | ds => (digitsValue 10 ds).map Int.ofNat

/-- `StrUnsignedDecimalLiteral` other than `Infinity`: digits with an optional
fraction and an optional exponent part; yields mantissa and decimal exponent. -/
def parseUnsignedDecimal (cs : List Char) : Option (Nat × Int) :=
  let ip := cs.takeWhile Char.isDigit
  let r1 := cs.dropWhile Char.isDigit
  let fp := match r1 with
    | '.' :: r => r.takeWhile Char.isDigit
    | _ => []
  let r2 := match r1 with
    | '.' :: r => r.dropWhile Char.isDigit
    | _ => r1
  match digitsValue 10 (ip ++ fp) with
  | none => none
  | some m =>
    match r2 with
    | [] => some (m, - Int.ofNat fp.length)
    | e :: r3 =>
      if e = 'e' ∨ e = 'E' then
        (parseSignedInteger r3).map fun x => (m, x - Int.ofNat fp.length)
      else none

/-- Whether a literal starts with the sign `-`. -/
def isNegative : List Char → Bool
  | '-' :: _ => true
  | _ => false

/-- A literal without its leading sign, if it has one. -/
def dropSign : List Char → List Char
  | '+' :: r => r
  | '-' :: r => r
  | cs => cs

/-- `StrDecimalLiteral`: an optionally signed decimal literal or `Infinity`. -/
def parseDecimalLiteral (cs : List Char) : Option JSNumber :=
  if dropSign cs = "Infinity".data then some (.infinity (isNegative cs))
  else (parseUnsignedDecimal (dropSign cs)).map fun p => .finite (isNegative cs) p.1 p.2

/-- `NonDecimalIntegerLiteral`: `0x`, `0o` or `0b` followed by digits of that
radix; no sign is allowed. -/
def parseNonDecimal : List Char → Option JSNumber
  | '0' :: p :: ds =>
    let radix : Option Nat :=
      if p = 'x' ∨ p = 'X' then some 16
      else if p = 'o' ∨ p = 'O' then some 8
      else if p = 'b' ∨ p = 'B' then some 2
      else none
    radix.bind fun r => (digitsValue r ds).map fun n => .finite false n 0
  | _ => none

/-- `StringToNumber`: surrounding white space is skipped, the empty string is
`+0`, and a string that is no numeric literal is `NaN`. -/
def stringToNumber (s : String) : JSNumber :=
  let cs := trimChars s.data
  if cs = [] then .finite false 0 0
  else match parseDecimalLiteral cs with
    | some x => x
    | none => (parseNonDecimal cs).getD .nan

/-- A non-negative value `mantissa × 10 ^ exponent` whose nearest double is
`+0`: the value is at most `2 ^ (-1075)`, half of the least positive double. -/
def roundsToZero (mantissa : Nat) (exponent : Int) : Bool :=
  mantissa == 0 || (exponent < 0 && mantissa * 2 ^ 1075 ≤ 10 ^ exponent.natAbs)

/-- `x <= 0` on numbers: false for `NaN`, otherwise the comparison of the double
nearest to the value with zero. -/
def JSNumber.leZero : JSNumber → Bool
  | .nan => false
  | .infinity negative => negative
  | .finite negative m e => negative || roundsToZero m e

/-- The expression `value <= 0` for a string `value`: the string is converted
with `StringToNumber` and the numbers are compared. -/
def leZero (value : String) : Bool := (stringToNumber value).leZero

/-! ## The document -/

/-- An element of the document with the attributes the script reads or writes.
`id` is `none` for an element without identifier and `value` is `none` for an
element that is no form control. -/
inductive Element where
  | node (id : Option String) (classList : List String) (value : Option String)
      (textContent : String) (children : List Element)

/-- The document: the elements below the body, in document order. -/
abbrev Document := List Element

/-- Identifier of an element. -/
def Element.id : Element → Option String
  | .node i _ _ _ _ => i

/-- Class list of an element. -/
def Element.classList : Element → List String
  | .node _ c _ _ _ => c

/-- Current value of a form control. -/
def Element.value : Element → Option String
  | .node _ _ v _ _ => v

/-- Text content of an element. -/
def Element.textContent : Element → String
  | .node _ _ _ t _ => t

/-- Children of an element. -/
def Element.children : Element → List Element
  | .node _ _ _ _ cs => cs

mutual
/-- First element with the identifier among an element and its descendants. -/
def findById (fieldId : String) : Element → Option Element
  | .node i c v t cs =>
    if i = some fieldId then some (.node i c v t cs) else findByIdList fieldId cs
/-- First element with the identifier in a forest, in document order. -/
def findByIdList (fieldId : String) : List Element → Option Element
  | [] => none
  | e :: es =>
    match findById fieldId e with
    | some x => some x
    | none => findByIdList fieldId es
end

/-- `document.getElementById(fieldId)`; `none` stands for `null`. -/
def getElementById (fieldId : String) (doc : Document) : Option Element :=
  findByIdList fieldId doc

mutual
/-- Elements carrying the class among an element and its descendants. -/
def selectClass (cls : String) : Element → List Element
  | .node i c v t cs =>
    if cls ∈ c then .node i c v t cs :: selectClassList cls cs else selectClassList cls cs
/-- Elements carrying the class in a forest, in document order. -/
def selectClassList (cls : String) : List Element → List Element
  | [] => []
  | e :: es => selectClass cls e ++ selectClassList cls es
end

/-- `document.querySelectorAll('.' + cls)`. -/
def querySelectorAll (cls : String) (doc : Document) : List Element :=
  selectClassList cls doc

mutual
/-- Remove a class from an element and from all its descendants. -/
def removeClass (cls : String) : Element → Element
  | .node i c v t cs => .node i (c.filter (· ≠ cls)) v t (removeClassList cls cs)
/-- Remove a class from every element of a forest. -/
def removeClassList (cls : String) : List Element → List Element
  | [] => []
  | e :: es => removeClass cls e :: removeClassList cls es
end

mutual
/-- Detach the descendants of an element that carry the class. -/
def detachBelow (cls : String) : Element → Element
  | .node i c v t cs => .node i c v t (detachList cls cs)
/-- Detach, with their subtrees, the elements of a forest that carry the class. -/
def detachList (cls : String) : List Element → List Element
  | [] => []
  | e :: es =>
    if cls ∈ e.classList then detachList cls es else detachBelow cls e :: detachList cls es
end

/-- `clearFormErrors()`: `classList.remove('is-invalid')` on every element
selected by `.is-invalid`, then `remove()` on every element selected by
`.form-error`. -/
def clearFormErrors (doc : Document) : Document :=
  detachList "form-error" (removeClassList "is-invalid" doc)

/-- The node built by `showError`: a `div` with
`className = 'invalid-feedback form-error'` and the message as text. -/
def errorDiv (message : String) : Element :=
  .node none ["invalid-feedback", "form-error"] none message []

/-- `classList.add(cls)`: the class list is a set of tokens. -/
def Element.addClass (cls : String) : Element → Element
  | .node i c v t cs => .node i (if cls ∈ c then c else c ++ [cls]) v t cs

mutual
/-- Decorate the first element with the identifier strictly below an element;
`none` when there is none. -/
def decorateBelow (fieldId message : String) : Element → Option Element
  | .node i c v t cs => (decorateList fieldId message cs).map fun cs' => .node i c v t cs'
/-- Decorate the first element with the identifier in a forest: the element gets
the class `is-invalid` and the error node becomes the last child of its parent,
that is, the last element of the sibling list that holds the element. -/
def decorateList (fieldId message : String) : List Element → Option (List Element)
  | [] => none
  | e :: es =>
    if e.id = some fieldId then some (e.addClass "is-invalid" :: es ++ [errorDiv message])
    else match decorateBelow fieldId message e with
      | some e' => some (e' :: es)
      | none => (decorateList fieldId message es).map fun es' => e :: es'
end

/-- `showError(fieldId, message)`: nothing happens when no element has the
identifier. -/
def showError (fieldId message : String) (doc : Document) : Document :=
  match getElementById fieldId doc with
  | none => doc
  | some _ => (decorateList fieldId message doc).getD doc

/-- `document.getElementById(fieldId).value`.  The outer `none` stands for the
`TypeError` raised when no element has the identifier; otherwise the result is
the value of the element found, `none` standing for `undefined`, the value of
an element that is no form control. -/
def fieldValue (fieldId : String) (doc : Document) : Option (Option String) :=
  (getElementById fieldId doc).map Element.value

/-- `document.getElementById(fieldId).value.trim()`: `none` stands for the
`TypeError` raised when no element has the identifier or when the value is
`undefined`. -/
def trimmedValue (fieldId : String) (doc : Document) : Option String :=
  match fieldValue fieldId doc with
  | some (some value) => some (jsTrim value)
  | _ => none

/-! ## The validators

A value read without `trim()` is a string or `undefined`; `!value` holds for
`undefined` and for the empty string, and `undefined !== value` holds for every
string. -/

/-- `validateRegistrationForm()`: the values are read, earlier decorations are
cleared, each rule that fails calls `showError`, and the result tells whether
the document holds no `.form-error` element afterwards. -/
def validateRegistrationForm (doc : Document) : Option (Bool × Document) := do
  let username ← trimmedValue "username" doc
  let password ← fieldValue "password" doc
  let confirmPassword ← fieldValue "confirm_password" doc
  let fullName ← trimmedValue "full_name" doc
  let address ← trimmedValue "address" doc
  let pincode ← trimmedValue "pincode" doc
  let doc := clearFormErrors doc
  let doc :=
    if username = "" then showError "username" "Username is required" doc
    else if jsLength username < 3 then
      showError "username" "Username must be at least 3 characters" doc
    else doc
  let doc :=
    match password with
    | none => showError "password" "Password is required" doc
    | some password =>
      if password = "" then showError "password" "Password is required" doc
      else if jsLength password < 6 then
        showError "password" "Password must be at least 6 characters" doc
      else doc
  let doc :=
    if password ≠ confirmPassword then
      showError "confirm_password" "Passwords do not match" doc
    else doc
  let doc :=
    if fullName = "" then showError "full_name" "Full name is required" doc else doc
  let doc :=
    if address = "" then showError "address" "Address is required" doc else doc
  let doc :=
    if pincode = "" then showError "pincode" "Pincode is required" doc
    else if ¬ pincodePattern.test pincode then
      showError "pincode" "Invalid pincode format" doc
    else doc
  let errorElements := querySelectorAll "form-error" doc
  pure (errorElements.length == 0, doc)

/-- `validateLoginForm()`. -/
def validateLoginForm (doc : Document) : Option (Bool × Document) := do
  let username ← trimmedValue "username" doc
  let password ← fieldValue "password" doc
  let doc := clearFormErrors doc
  let doc :=
    if username = "" then showError "username" "Username is required" doc else doc
  let doc :=
    match password with
    | none => showError "password" "Password is required" doc
    | some password =>
      if password = "" then showError "password" "Password is required" doc else doc
  let errorElements := querySelectorAll "form-error" doc
  pure (errorElements.length == 0, doc)

/-- `validateAddLotForm()`. -/
def validateAddLotForm (doc : Document) : Option (Bool × Document) := do
  let name ← trimmedValue "name" doc
  let address ← trimmedValue "address" doc
  let pincode ← trimmedValue "pincode" doc
  let pricePerHour ← fieldValue "price_per_hour" doc
  let maxSpots ← fieldValue "max_spots" doc
  let doc := clearFormErrors doc
  let doc :=
    if name = "" then showError "name" "Lot name is required" doc else doc
  let doc :=
    if address = "" then showError "address" "Address is required" doc else doc
  let doc :=
    if pincode = "" then showError "pincode" "Pincode is required" doc
    else if ¬ pincodePattern.test pincode then
      showError "pincode" "Invalid pincode format" doc
    else doc
  let doc :=
    match pricePerHour with
    | none => showError "price_per_hour" "Price per hour is required" doc
    | some pricePerHour =>
      if pricePerHour = "" then
        showError "price_per_hour" "Price per hour is required" doc
      else if leZero pricePerHour then
        showError "price_per_hour" "Price per hour must be greater than 0" doc
      else doc
  let doc :=
    match maxSpots with
    | none => showError "max_spots" "Maximum spots is required" doc
    | some maxSpots =>
      if maxSpots = "" then showError "max_spots" "Maximum spots is required" doc
      else if leZero maxSpots then
        showError "max_spots" "Maximum spots must be greater than 0" doc
      else doc
  let errorElements := querySelectorAll "form-error" doc
  pure (errorElements.length == 0, doc)

/-! ## Input records and the calls to `showError`

The tests of a validator depend only on the values read at its start, so the
sequence of `showError` calls of one pass is a function of those values.  The
records below hold the raw `value` of each field read, for a document in which
every field read is a form control with a string value; the functions list the
calls (field identifier, message) in program order. -/

/-- The string value of the form control with the identifier; `none` when no
element has the identifier or the element found has no string value. -/
def stringValue (fieldId : String) (doc : Document) : Option String :=
  (getElementById fieldId doc).bind Element.value

/-- Values read by `validateRegistrationForm`. -/
structure RegistrationInput where
  username : String
  password : String
  confirmPassword : String
  fullName : String
  address : String
  pincode : String
  deriving DecidableEq, Repr

/-- Values read by `validateLoginForm`. -/
structure LoginInput where
  username : String
  password : String
  deriving DecidableEq, Repr

/-- Values read by `validateAddLotForm`. -/
structure AddLotInput where
  name : String
  address : String
  pincode : String
  pricePerHour : String
  maxSpots : String
  deriving DecidableEq, Repr

/-- The record held by the registration fields of a document: the values read
at the start of `validateRegistrationForm`, when all six are strings. -/
def readRegistration (doc : Document) : Option RegistrationInput := do
  let username ← stringValue "username" doc
  let password ← stringValue "password" doc
  let confirmPassword ← stringValue "confirm_password" doc
  let fullName ← stringValue "full_name" doc
  let address ← stringValue "address" doc
  let pincode ← stringValue "pincode" doc
  pure ⟨username, password, confirmPassword, fullName, address, pincode⟩

/-- The record held by the login fields of a document. -/
def readLogin (doc : Document) : Option LoginInput := do
  let username ← stringValue "username" doc
  let password ← stringValue "password" doc
  pure ⟨username, password⟩

/-- The record held by the add-lot fields of a document. -/
def readAddLot (doc : Document) : Option AddLotInput := do
  let name ← stringValue "name" doc
  let address ← stringValue "address" doc
  let pincode ← stringValue "pincode" doc
  let pricePerHour ← stringValue "price_per_hour" doc
  let maxSpots ← stringValue "max_spots" doc
  pure ⟨name, address, pincode, pricePerHour, maxSpots⟩

/-- The `showError` calls of `validateRegistrationForm`, in program order. -/
def registrationErrors (i : RegistrationInput) : List (String × String) :=
  (if jsTrim i.username = "" then [("username", "Username is required")]
   else if jsLength (jsTrim i.username) < 3 then
     [("username", "Username must be at least 3 characters")]
   else []) ++
  (if i.password = "" then [("password", "Password is required")]
   else if jsLength i.password < 6 then
     [("password", "Password must be at least 6 characters")]
   else []) ++
  (if i.password ≠ i.confirmPassword then
     [("confirm_password", "Passwords do not match")]
   else []) ++
  (if jsTrim i.fullName = "" then [("full_name", "Full name is required")] else []) ++
  (if jsTrim i.address = "" then [("address", "Address is required")] else []) ++
  (if jsTrim i.pincode = "" then [("pincode", "Pincode is required")]
   else if ¬ pincodePattern.test (jsTrim i.pincode) then
     [("pincode", "Invalid pincode format")]
   else [])

/-- The `showError` calls of `validateLoginForm`, in program order. -/
def loginErrors (i : LoginInput) : List (String × String) :=
  (if jsTrim i.username = "" then [("username", "Username is required")] else []) ++
  (if i.password = "" then [("password", "Password is required")] else [])

/-- The `showError` calls of `validateAddLotForm`, in program order. -/
def addLotErrors (i : AddLotInput) : List (String × String) :=
  (if jsTrim i.name = "" then [("name", "Lot name is required")] else []) ++
  (if jsTrim i.address = "" then [("address", "Address is required")] else []) ++
  (if jsTrim i.pincode = "" then [("pincode", "Pincode is required")]
   else if ¬ pincodePattern.test (jsTrim i.pincode) then
     [("pincode", "Invalid pincode format")]
   else []) ++
  (if i.pricePerHour = "" then [("price_per_hour", "Price per hour is required")]
   else if leZero i.pricePerHour then
     [("price_per_hour", "Price per hour must be greater than 0")]
   else []) ++
  (if i.maxSpots = "" then [("max_spots", "Maximum spots is required")]
   else if leZero i.maxSpots then
     [("max_spots", "Maximum spots must be greater than 0")]
   else [])

/-- Perform a sequence of `showError` calls on a document. -/
def showErrors (calls : List (String × String)) (doc : Document) : Document :=
  calls.foldl (fun d call => showError call.1 call.2 d) doc

/-- A pass of a validator whose reads gave `calls`: clear, decorate, count. -/
def runPass (calls : List (String × String)) (doc : Document) : Bool × Document :=
  let doc := showErrors calls (clearFormErrors doc)
  ((querySelectorAll "form-error" doc).length == 0, doc)

/-! ## The submit handlers -/

/-- The part of a submit event the handlers touch: whether its default action,
the submission of the form, has been cancelled. -/
structure Event where
  defaultPrevented : Bool
  deriving DecidableEq, Repr

/-- `e.preventDefault()` on a submit event, which is cancelable. -/
def Event.preventDefault (e : Event) : Event := { e with defaultPrevented := true }

/-- The listener bound to `register-form`:
`function(e) { if (!validateRegistrationForm()) { e.preventDefault(); } }`. -/
def registerFormSubmit (doc : Document) (e : Event) : Option (Document × Event) := do
  let (valid, doc) ← validateRegistrationForm doc
  pure (doc, if !valid then e.preventDefault else e)

/-- The listener bound to `login-form`. -/
def loginFormSubmit (doc : Document) (e : Event) : Option (Document × Event) := do
  let (valid, doc) ← validateLoginForm doc
  pure (doc, if !valid then e.preventDefault else e)

/-- The listener bound to `add-lot-form`. -/
def addLotFormSubmit (doc : Document) (e : Event) : Option (Document × Event) := do
  let (valid, doc) ← validateAddLotForm doc
  pure (doc, if !valid then e.preventDefault else e)

/-- The `DOMContentLoaded` listener: for each of the three forms present in the
document, its submit listener is bound under the identifier of the form. -/
def domContentLoaded (doc : Document) :
    List (String × (Document → Event → Option (Document × Event))) :=
  (if (getElementById "register-form" doc).isSome then
     [("register-form", registerFormSubmit)] else []) ++
  (if (getElementById "login-form" doc).isSome then
     [("login-form", loginFormSubmit)] else []) ++
  (if (getElementById "add-lot-form" doc).isSome then
     [("add-lot-form", addLotFormSubmit)] else [])

/-! ## Notions used in the statements -/

/-- Six characters, the first in `1..9` and the other five in `0..9`. -/
def IsPincode (s : String) : Prop :=
  match s.data with
  | [] => False
  | c :: rest => ('1' ≤ c ∧ c ≤ '9') ∧ rest.length = 5 ∧ ∀ x ∈ rest, '0' ≤ x ∧ x ≤ '9'

instance (s : String) : Decidable (IsPincode s) := by
  unfold IsPincode
  split <;> infer_instance

/-- The field is an element of the document that is not part of an error
decoration: `showError` still finds it once `clearFormErrors` has run.  An
element that carries the class `form-error` itself, or lies inside one that
does, is detached by `clearFormErrors` and is not decorable. -/
def Decorable (fieldId : String) (doc : Document) : Prop :=
  (getElementById fieldId (clearFormErrors doc)).isSome

instance (fieldId : String) (doc : Document) : Decidable (Decorable fieldId doc) :=
  inferInstanceAs (Decidable ((getElementById fieldId (clearFormErrors doc)).isSome = true))

/-- Identifiers of the fields read by `validateRegistrationForm`. -/
def registrationFields : List String :=
  ["username", "password", "confirm_password", "full_name", "address", "pincode"]

/-- Identifiers of the fields read by `validateLoginForm`. -/
def loginFields : List String := ["username", "password"]

/-- Identifiers of the fields read by `validateAddLotForm`. -/
def addLotFields : List String :=
  ["name", "address", "pincode", "price_per_hour", "max_spots"]

/-- One step down the document: the sibling list is `before`, then one element
whose child list is left open, then `after`. -/
structure Frame where
  before : List Element
  id : Option String
  classList : List String
  value : Option String
  textContent : String
  after : List Element

/-- The sibling list of a frame once the open child list is given. -/
def Frame.fill (f : Frame) (inner : List Element) : List Element :=
  f.before ++ .node f.id f.classList f.value f.textContent inner :: f.after

/-- The document around a sibling list that lies below a path of frames, the
outermost frame first. -/
def fillAll : List Frame → List Element → Document
  | [], inner => inner
  | f :: fs, inner => f.fill (fillAll fs inner)

/-- Nothing that comes before the open child list of the frame, in document
order, has the identifier: neither the elements before it nor its parent. -/
def Frame.Clear (fieldId : String) (f : Frame) : Prop :=
  findByIdList fieldId f.before = none ∧ f.id ≠ some fieldId

/-- The document `doc'` is `doc` with its first element of identifier `fieldId`
decorated: that element has `is-invalid` added to its class list, a node of
class `invalid-feedback form-error` with the message as text is the new last
child of its parent, and nothing else differs. -/
def Decorated (fieldId message : String) (doc doc' : List Element) : Prop :=
  ∃ (path : List Frame) (before after : List Element) (c : List String) (v : Option String)
    (t : String) (cs : List Element),
    doc = fillAll path (before ++ .node (some fieldId) c v t cs :: after) ∧
    (∀ f ∈ path, f.Clear fieldId) ∧ findByIdList fieldId before = none ∧
    findByIdList fieldId doc = some (.node (some fieldId) c v t cs) ∧
    doc' = fillAll path
      (before ++ .node (some fieldId) (if "is-invalid" ∈ c then c else c ++ ["is-invalid"]) v t cs ::
        (after ++ [.node none ["invalid-feedback", "form-error"] none message []]))

/-- The messages shown in a document: the texts of its `.form-error` elements,
in document order. -/
def shownMessages (doc : Document) : List String :=
  (querySelectorAll "form-error" doc).map Element.textContent

/-- The identifiers of the elements of a document marked `is-invalid`, in
document order. -/
def markedFields (doc : Document) : List (Option String) :=
  (querySelectorAll "is-invalid" doc).map Element.id

/-! ## Sample documents -/

/-- A form control with an identifier and a current value. -/
def control (fieldId value : String) (classes : List String) : Element :=
  .node (some fieldId) classes (some value) "" []

/-- A `div` of class `form-group` around some elements. -/
def formGroup (children : List Element) : Element :=
  .node none ["form-group"] none "" children

/-- A registration page holding the given values, as an earlier pass that found
the username missing left it: the username control is marked and followed by
its message. -/
def registrationPage (i : RegistrationInput) : Document :=
  [.node (some "register-form") [] none ""
    [formGroup [control "username" i.username ["form-control", "is-invalid"],
       errorDiv "Username is required"],
     formGroup [control "password" i.password ["form-control"]],
     formGroup [control "confirm_password" i.confirmPassword ["form-control"]],
     formGroup [control "full_name" i.fullName ["form-control"]],
     formGroup [control "address" i.address ["form-control"]],
     formGroup [control "pincode" i.pincode ["form-control"]]]]

/-- A login page holding the given values, with a message left by an earlier
pass. -/
def loginPage (i : LoginInput) : Document :=
  [.node (some "login-form") [] none ""
    [formGroup [control "username" i.username ["form-control"]],
     formGroup [control "password" i.password ["form-control", "is-invalid"],
       errorDiv "Password is required"]]]

/-- An add-lot page holding the given values, with a message left by an earlier
pass. -/
def addLotPage (i : AddLotInput) : Document :=
  [.node (some "add-lot-form") [] none ""
    [formGroup [control "name" i.name ["form-control"]],
     formGroup [control "address" i.address ["form-control"]],
     formGroup [control "pincode" i.pincode ["form-control", "is-invalid"],
       errorDiv "Invalid pincode format"],
     formGroup [control "price_per_hour" i.pricePerHour ["form-control"]],
     formGroup [control "max_spots" i.maxSpots ["form-control"]]]]

/-- A login page holding the given values, without decorations. -/
def plainLoginPage (i : LoginInput) : Document :=
  [.node (some "login-form") [] none ""
    [formGroup [control "username" i.username ["form-control"]],
     formGroup [control "password" i.password ["form-control"]]]]

/-- A login page whose form element carries the class `form-error`. -/
def flaggedLoginPage (i : LoginInput) : Document :=
  [.node (some "login-form") ["form-error"] none ""
    [formGroup [control "username" i.username ["form-control"]],
     formGroup [control "password" i.password ["form-control"]]]]

/-- A login page whose password control lies inside an element of class
`form-error`. -/
def flaggedPasswordPage (i : LoginInput) : Document :=
  [.node (some "login-form") [] none ""
    [formGroup [control "username" i.username ["form-control"]],
     .node none ["form-group", "form-error"] none ""
       [control "password" i.password ["form-control"]]]]

/-- A registration page whose username control lies inside an element of class
`form-error`. -/
def flaggedRegistrationPage (i : RegistrationInput) : Document :=
  [.node (some "register-form") [] none ""
    [.node none ["form-group", "form-error"] none ""
       [control "username" i.username ["form-control"]],
     formGroup [control "password" i.password ["form-control"]],
     formGroup [control "confirm_password" i.confirmPassword ["form-control"]],
     formGroup [control "full_name" i.fullName ["form-control"]],
     formGroup [control "address" i.address ["form-control"]],
     formGroup [control "pincode" i.pincode ["form-control"]]]]

/-- An add-lot page whose price control lies inside an element of class
`form-error`. -/
def flaggedAddLotPage (i : AddLotInput) : Document :=
  [.node (some "add-lot-form") [] none ""
    [formGroup [control "name" i.name ["form-control"]],
     formGroup [control "address" i.address ["form-control"]],
     formGroup [control "pincode" i.pincode ["form-control"]],
     .node none ["form-group", "form-error"] none ""
       [control "price_per_hour" i.pricePerHour ["form-control"]],
     formGroup [control "max_spots" i.maxSpots ["form-control"]]]]

/-- A registration payload that satisfies every rule. -/
def validRegistration : RegistrationInput :=
  ⟨"abc", "abc123", "abc123", "Asha Rao", "12 Main Road", "560001"⟩

/-- A login payload that satisfies every rule. -/
def validLogin : LoginInput := ⟨"a", "b"⟩

/-- An add-lot payload that satisfies every rule. -/
def validAddLot : AddLotInput := ⟨"Lot A", "12 Main Road", "560001", "40", "25"⟩

/-! ## Lemmas on the document operations -/

theorem findByIdList_cons_isSome (fieldId : String) (e : Element) (es : List Element) :
    (findByIdList fieldId (e :: es)).isSome =
      ((findById fieldId e).isSome || (findByIdList fieldId es).isSome) := by
  simp only [findByIdList]
  cases findById fieldId e <;> simp

theorem findById_isSome (fieldId : String) (e : Element) :
    (findById fieldId e).isSome =
      (decide (e.id = some fieldId) || (findByIdList fieldId e.children).isSome) := by
  cases e with
  | node i c v t cs =>
    simp only [findById, Element.id, Element.children]
    by_cases h : i = some fieldId <;> simp [h]

theorem findByIdList_append_isSome (fieldId : String) (es fs : List Element) :
    (findByIdList fieldId (es ++ fs)).isSome =
      ((findByIdList fieldId es).isSome || (findByIdList fieldId fs).isSome) := by
  induction es with
  | nil => simp [findByIdList]
  | cons e es ih => simp [findByIdList_cons_isSome, ih, Bool.or_assoc]

theorem findById_errorDiv (fieldId message : String) :
    findById fieldId (errorDiv message) = none := by
  simp [errorDiv, findById, findByIdList]

theorem addClass_id (cls : String) (e : Element) : (e.addClass cls).id = e.id := by
  cases e; rfl

theorem addClass_children (cls : String) (e : Element) :
    (e.addClass cls).children = e.children := by
  cases e; rfl

theorem selectClassList_append (cls : String) (es fs : List Element) :
    selectClassList cls (es ++ fs) = selectClassList cls es ++ selectClassList cls fs := by
  induction es with
  | nil => simp [selectClassList]
  | cons e es ih => simp [selectClassList, ih]

theorem selectClass_length (cls : String) (e : Element) :
    (selectClass cls e).length =
      (if cls ∈ e.classList then 1 else 0) + (selectClassList cls e.children).length := by
  cases e with
  | node i c v t cs =>
    simp only [selectClass, Element.classList, Element.children]
    split <;> simp [Nat.add_comm]

theorem selectClass_errorDiv (message : String) :
    (selectClass "form-error" (errorDiv message)).length = 1 := by
  simp [errorDiv, selectClass, selectClassList]

theorem addClass_invalid_mem (e : Element) :
    "form-error" ∈ (e.addClass "is-invalid").classList ↔ "form-error" ∈ e.classList := by
  cases e with
  | node i c v t cs =>
    simp only [Element.addClass, Element.classList]
    split <;> simp

mutual
theorem selectClass_detachBelow (cls : String) :
    ∀ e : Element, cls ∉ e.classList → selectClass cls (detachBelow cls e) = []
  | .node i c v t cs, h => by
    have h' : cls ∉ c := h
    simp only [detachBelow, selectClass, h', if_false]
    exact selectClassList_detachList cls cs
theorem selectClassList_detachList (cls : String) :
    ∀ es : List Element, selectClassList cls (detachList cls es) = []
  | [] => rfl
  | e :: es => by
    simp only [detachList]
    split
    · exact selectClassList_detachList cls es
    · rename_i h
      simp [selectClassList, selectClass_detachBelow cls e h, selectClassList_detachList cls es]
end

theorem querySelectorAll_clearFormErrors (doc : Document) :
    querySelectorAll "form-error" (clearFormErrors doc) = [] :=
  selectClassList_detachList "form-error" _

mutual
theorem decorateBelow_isSome (fieldId message : String) :
    ∀ e : Element, (decorateBelow fieldId message e).isSome =
      (findByIdList fieldId e.children).isSome
  | .node i c v t cs => by
    simp only [decorateBelow, Element.children, Option.isSome_map']
    exact decorateList_isSome fieldId message cs
theorem decorateList_isSome (fieldId message : String) :
    ∀ es : List Element, (decorateList fieldId message es).isSome =
      (findByIdList fieldId es).isSome
  | [] => rfl
  | e :: es => by
    have h1 := decorateBelow_isSome fieldId message e
    have h2 := decorateList_isSome fieldId message es
    rw [findByIdList_cons_isSome, findById_isSome]
    simp only [decorateList]
    by_cases h : e.id = some fieldId
    · simp [h]
    · simp only [h, if_false, decide_False, Bool.false_or]
      rw [← h1, ← h2]
      cases decorateBelow fieldId message e <;> simp
end

mutual
theorem decorateBelow_find (fieldId message other : String) :
    ∀ e e' : Element, decorateBelow fieldId message e = some e' →
      (findById other e').isSome = (findById other e).isSome
  | .node i c v t cs, e', h => by
    simp only [decorateBelow, Option.map_eq_some'] at h
    obtain ⟨cs', hcs, rfl⟩ := h
    rw [findById_isSome, findById_isSome]
    simp only [Element.id, Element.children]
    rw [decorateList_find fieldId message other cs cs' hcs]
theorem decorateList_find (fieldId message other : String) :
    ∀ es es' : List Element, decorateList fieldId message es = some es' →
      (findByIdList other es').isSome = (findByIdList other es).isSome
  | [], _, h => by simp [decorateList] at h
  | e :: es, es', h => by
    simp only [decorateList] at h
    split at h
    · cases h
      rw [findByIdList_cons_isSome, findByIdList_append_isSome, findByIdList_cons_isSome,
        findById_isSome, findById_isSome (e := e), addClass_id, addClass_children]
      simp [findByIdList, findById_errorDiv]
    · split at h
      · rename_i e' he
        cases h
        rw [findByIdList_cons_isSome, findByIdList_cons_isSome,
          decorateBelow_find fieldId message other e e' he]
      · simp only [Option.map_eq_some'] at h
        obtain ⟨fs, hfs, rfl⟩ := h
        rw [findByIdList_cons_isSome, findByIdList_cons_isSome,
          decorateList_find fieldId message other es fs hfs]
end

mutual
theorem decorateBelow_count (fieldId message : String) :
    ∀ e e' : Element, decorateBelow fieldId message e = some e' →
      (selectClass "form-error" e').length = (selectClass "form-error" e).length + 1
  | .node i c v t cs, e', h => by
    simp only [decorateBelow, Option.map_eq_some'] at h
    obtain ⟨cs', hcs, rfl⟩ := h
    rw [selectClass_length, selectClass_length]
    simp only [Element.classList, Element.children]
    rw [decorateList_count fieldId message cs cs' hcs]
    omega
theorem decorateList_count (fieldId message : String) :
    ∀ es es' : List Element, decorateList fieldId message es = some es' →
      (selectClassList "form-error" es').length =
        (selectClassList "form-error" es).length + 1
  | [], _, h => by simp [decorateList] at h
  | e :: es, es', h => by
    simp only [decorateList] at h
    split at h
    · cases h
      simp only [selectClassList, List.append_eq, selectClassList_append, List.length_append,
        selectClass_errorDiv, List.length_nil, selectClass_length, addClass_children,
        addClass_invalid_mem]
      have hd : "form-error" ∈ (errorDiv message).classList := by
        simp [errorDiv, Element.classList]
      simp only [hd, if_true]
      omega
    · split at h
      · rename_i e' he
        cases h
        simp only [selectClassList, List.length_append,
          decorateBelow_count fieldId message e e' he]
        omega
      · simp only [Option.map_eq_some'] at h
        obtain ⟨fs, hfs, rfl⟩ := h
        simp only [selectClassList, List.length_append,
          decorateList_count fieldId message es fs hfs]
        omega
end

theorem getElementById_showError (fieldId message other : String) (doc : Document) :
    (getElementById other (showError fieldId message doc)).isSome =
      (getElementById other doc).isSome := by
  unfold showError
  cases hf : getElementById fieldId doc with
  | none => rfl
  | some x =>
    have hs := decorateList_isSome fieldId message doc
    unfold getElementById at hf
    rw [hf] at hs
    cases hd : decorateList fieldId message doc with
    | none => rw [hd] at hs; simp at hs
    | some doc' => exact decorateList_find fieldId message other doc doc' hd

theorem count_showError (fieldId message : String) (doc : Document) :
    (querySelectorAll "form-error" (showError fieldId message doc)).length =
      (querySelectorAll "form-error" doc).length +
        (if (getElementById fieldId doc).isSome then 1 else 0) := by
  unfold showError
  cases hf : getElementById fieldId doc with
  | none => simp
  | some x =>
    have hs := decorateList_isSome fieldId message doc
    unfold getElementById at hf
    rw [hf] at hs
    cases hd : decorateList fieldId message doc with
    | none => rw [hd] at hs; simp at hs
    | some doc' =>
      simpa [querySelectorAll] using decorateList_count fieldId message doc doc' hd

theorem getElementById_showErrors (other : String) (calls : List (String × String))
    (doc : Document) :
    (getElementById other (showErrors calls doc)).isSome = (getElementById other doc).isSome := by
  induction calls generalizing doc with
  | nil => rfl
  | cons c cs ih =>
    show (getElementById other (showErrors cs (showError c.1 c.2 doc))).isSome = _
    rw [ih, getElementById_showError]

theorem count_showErrors (calls : List (String × String)) (doc : Document) :
    (querySelectorAll "form-error" (showErrors calls doc)).length =
      (querySelectorAll "form-error" doc).length +
        (calls.filter fun c => (getElementById c.1 doc).isSome).length := by
  induction calls generalizing doc with
  | nil => rfl
  | cons c cs ih =>
    show (querySelectorAll "form-error" (showErrors cs (showError c.1 c.2 doc))).length = _
    rw [ih, count_showError]
    simp only [getElementById_showError, List.filter_cons]
    split
    · simp; omega
    · simp

theorem runPass_fst (calls : List (String × String)) (doc : Document) :
    (runPass calls doc).1 = true ↔
      ∀ c ∈ calls, (getElementById c.1 (clearFormErrors doc)).isSome = false := by
  simp only [runPass, count_showErrors, querySelectorAll_clearFormErrors, List.length_nil,
    Nat.zero_add, beq_iff_eq, List.length_eq_zero, List.filter_eq_nil_iff]
  simp

/-! ## The validators as passes over the calls they issue -/

theorem showErrors_nil (d : Document) : showErrors [] d = d := rfl

theorem showErrors_append (a b : List (String × String)) (d : Document) :
    showErrors (a ++ b) d = showErrors b (showErrors a d) := by
  simp [showErrors, List.foldl_append]

theorem showErrors_ite (c : Prop) [Decidable c] (a b : List (String × String)) (d : Document) :
    showErrors (if c then a else b) d = if c then showErrors a d else showErrors b d := by
  split <;> rfl

theorem showErrors_single (f m : String) (d : Document) :
    showErrors [(f, m)] d = showError f m d := rfl

theorem fieldValue_of_stringValue (fieldId : String) (doc : Document) (value : String)
    (h : stringValue fieldId doc = some value) : fieldValue fieldId doc = some (some value) := by
  unfold stringValue at h
  unfold fieldValue
  cases hg : getElementById fieldId doc with
  | none => rw [hg] at h; cases h
  | some e =>
    rw [hg] at h
    simp only [Option.some_bind] at h
    simp only [Option.map_some', h]

theorem trimmedValue_of_stringValue (fieldId : String) (doc : Document) (value : String)
    (h : stringValue fieldId doc = some value) :
    trimmedValue fieldId doc = some (jsTrim value) := by
  unfold trimmedValue
  rw [fieldValue_of_stringValue fieldId doc value h]

theorem readRegistration_fields (doc : Document) (i : RegistrationInput)
    (h : readRegistration doc = some i) :
    stringValue "username" doc = some i.username ∧
      stringValue "password" doc = some i.password ∧
      stringValue "confirm_password" doc = some i.confirmPassword ∧
      stringValue "full_name" doc = some i.fullName ∧
      stringValue "address" doc = some i.address ∧
      stringValue "pincode" doc = some i.pincode := by
  unfold readRegistration at h
  cases h1 : stringValue "username" doc with
  | none => rw [h1] at h; cases h
  | some u =>
  cases h2 : stringValue "password" doc with
  | none => rw [h1, h2] at h; cases h
  | some p =>
  cases h3 : stringValue "confirm_password" doc with
  | none => rw [h1, h2, h3] at h; cases h
  | some c =>
  cases h4 : stringValue "full_name" doc with
  | none => rw [h1, h2, h3, h4] at h; cases h
  | some f =>
  cases h5 : stringValue "address" doc with
  | none => rw [h1, h2, h3, h4, h5] at h; cases h
  | some a =>
  cases h6 : stringValue "pincode" doc with
  | none => rw [h1, h2, h3, h4, h5, h6] at h; cases h
  | some pin =>
  rw [h1, h2, h3, h4, h5, h6] at h
  cases h
  exact ⟨rfl, rfl, rfl, rfl, rfl, rfl⟩

theorem readLogin_fields (doc : Document) (i : LoginInput) (h : readLogin doc = some i) :
    stringValue "username" doc = some i.username ∧
      stringValue "password" doc = some i.password := by
  unfold readLogin at h
  cases h1 : stringValue "username" doc with
  | none => rw [h1] at h; cases h
  | some u =>
  cases h2 : stringValue "password" doc with
  | none => rw [h1, h2] at h; cases h
  | some p =>
  rw [h1, h2] at h
  cases h
  exact ⟨rfl, rfl⟩

theorem readAddLot_fields (doc : Document) (i : AddLotInput) (h : readAddLot doc = some i) :
    stringValue "name" doc = some i.name ∧
      stringValue "address" doc = some i.address ∧
      stringValue "pincode" doc = some i.pincode ∧
      stringValue "price_per_hour" doc = some i.pricePerHour ∧
      stringValue "max_spots" doc = some i.maxSpots := by
  unfold readAddLot at h
  cases h1 : stringValue "name" doc with
  | none => rw [h1] at h; cases h
  | some n =>
  cases h2 : stringValue "address" doc with
  | none => rw [h1, h2] at h; cases h
  | some a =>
  cases h3 : stringValue "pincode" doc with
  | none => rw [h1, h2, h3] at h; cases h
  | some pin =>
  cases h4 : stringValue "price_per_hour" doc with
  | none => rw [h1, h2, h3, h4] at h; cases h
  | some p =>
  cases h5 : stringValue "max_spots" doc with
  | none => rw [h1, h2, h3, h4, h5] at h; cases h
  | some m =>
  rw [h1, h2, h3, h4, h5] at h
  cases h
  exact ⟨rfl, rfl, rfl, rfl, rfl⟩

theorem validateRegistrationForm_eq (doc : Document) (i : RegistrationInput)
    (h : readRegistration doc = some i) :
    validateRegistrationForm doc = some (runPass (registrationErrors i) doc) := by
  obtain ⟨h1, h2, h3, h4, h5, h6⟩ := readRegistration_fields doc i h
  unfold validateRegistrationForm
  rw [trimmedValue_of_stringValue _ _ _ h1, fieldValue_of_stringValue _ _ _ h2,
    fieldValue_of_stringValue _ _ _ h3, trimmedValue_of_stringValue _ _ _ h4,
    trimmedValue_of_stringValue _ _ _ h5, trimmedValue_of_stringValue _ _ _ h6]
  show some _ = some _
  refine congrArg some ?_
  conv_rhs =>
    simp only [runPass, registrationErrors, showErrors_append, showErrors_ite, showErrors_single,
      showErrors_nil]
  simp only [ne_eq, Option.some.injEq]

theorem validateLoginForm_eq (doc : Document) (i : LoginInput) (h : readLogin doc = some i) :
    validateLoginForm doc = some (runPass (loginErrors i) doc) := by
  obtain ⟨h1, h2⟩ := readLogin_fields doc i h
  unfold validateLoginForm
  rw [trimmedValue_of_stringValue _ _ _ h1, fieldValue_of_stringValue _ _ _ h2]
  show some _ = some _
  refine congrArg some ?_
  conv_rhs =>
    simp only [runPass, loginErrors, showErrors_append, showErrors_ite, showErrors_single,
      showErrors_nil]

theorem validateAddLotForm_eq (doc : Document) (i : AddLotInput) (h : readAddLot doc = some i) :
    validateAddLotForm doc = some (runPass (addLotErrors i) doc) := by
  obtain ⟨h1, h2, h3, h4, h5⟩ := readAddLot_fields doc i h
  unfold validateAddLotForm
  rw [trimmedValue_of_stringValue _ _ _ h1, trimmedValue_of_stringValue _ _ _ h2,
    trimmedValue_of_stringValue _ _ _ h3, fieldValue_of_stringValue _ _ _ h4,
    fieldValue_of_stringValue _ _ _ h5]
  show some _ = some _
  refine congrArg some ?_
  conv_rhs =>
    simp only [runPass, addLotErrors, showErrors_append, showErrors_ite, showErrors_single,
      showErrors_nil]

/-! ## Lemmas on strings and on the pincode pattern -/

theorem jsLength_empty : jsLength "" = 0 := rfl

theorem strip_range_nil (lo hi : Char) : (Regex.range lo hi).strip [] = none := by
  unfold Regex.strip; rfl

theorem strip_range_cons (lo hi c : Char) (cs : List Char) :
    (Regex.range lo hi).strip (c :: cs) = if lo ≤ c ∧ c ≤ hi then some cs else none := by
  rw [Regex.strip]

theorem strip_seq (r s : Regex) (cs : List Char) :
    (Regex.seq r s).strip cs = (r.strip cs).bind s.strip := by
  rw [Regex.strip]

theorem strip_times (r : Regex) (n : Nat) (cs : List Char) :
    (Regex.times r n).strip cs = iterate r.strip n cs := by
  rw [Regex.strip]

theorem iterate_range (lo hi : Char) (n : Nat) (cs r : List Char) :
    iterate (Regex.range lo hi).strip n cs = some r ↔
      ∃ pre, cs = pre ++ r ∧ pre.length = n ∧ ∀ x ∈ pre, lo ≤ x ∧ x ≤ hi := by
  induction n generalizing cs with
  | zero =>
    simp only [iterate, Option.some.injEq]
    constructor
    · rintro rfl
      exact ⟨[], rfl, rfl, by simp⟩
    · rintro ⟨pre, rfl, hlen, -⟩
      rw [List.length_eq_zero.mp hlen]; rfl
  | succ n ih =>
    cases cs with
    | nil =>
      simp only [iterate, strip_range_nil, Option.none_bind, false_iff]
      refine ⟨(fun h => Option.noConfusion h), ?_⟩
      rintro ⟨pre, hpre, hlen, -⟩
      cases pre with
      | nil => simp at hlen
      | cons p ps => simp at hpre
    | cons c cs =>
      simp only [iterate, strip_range_cons]
      by_cases hc : lo ≤ c ∧ c ≤ hi
      · simp only [hc, and_self, if_true, Option.some_bind, ih]
        constructor
        · rintro ⟨pre, rfl, hlen, hall⟩
          refine ⟨c :: pre, rfl, by simp [hlen], ?_⟩
          intro x hx
          rcases List.mem_cons.mp hx with rfl | hx
          · exact hc
          · exact hall x hx
        · rintro ⟨pre, hpre, hlen, hall⟩
          cases pre with
          | nil => simp at hlen
          | cons p ps =>
            simp only [List.cons_append, List.cons.injEq] at hpre
            refine ⟨ps, hpre.2, by simpa using hlen, fun x hx => hall x (List.mem_cons_of_mem _ hx)⟩
      · simp only [hc, if_false, Option.none_bind]
        refine ⟨(fun h => Option.noConfusion h), ?_⟩
        rintro ⟨pre, hpre, hlen, hall⟩
        cases pre with
        | nil => simp at hlen
        | cons p ps =>
          simp only [List.cons_append, List.cons.injEq] at hpre
          exact absurd (hpre.1 ▸ hall p (List.mem_cons_self _ _)) hc

theorem pincode_test_iff (s : String) : pincodePattern.test s = true ↔ IsPincode s := by
  rcases s with ⟨cs⟩
  unfold Regex.test IsPincode pincodePattern
  cases cs with
  | nil => simp [strip_seq, strip_range_nil]
  | cons c cs =>
    simp only [strip_seq, strip_range_cons, strip_times, beq_iff_eq]
    by_cases hc : '1' ≤ c ∧ c ≤ '9'
    · simp only [hc, and_self, if_true, Option.some_bind, iterate_range, true_and]
      constructor
      · rintro ⟨pre, rfl, hlen, hall⟩
        simpa [hlen] using hall
      · rintro ⟨hlen, hall⟩
        exact ⟨cs, by simp, hlen, hall⟩
    · simp [hc]

/-! ## Decimal strings of integers -/

theorem digitChar_spec (d : Nat) (h : d < 10) :
    digitValue 10 (Nat.digitChar d) = some d ∧ (Nat.digitChar d).isDigit = true ∧
      isWhiteSpace (Nat.digitChar d) = false ∧ Nat.digitChar d ≠ '-' ∧
      Nat.digitChar d ≠ '+' ∧ Nat.digitChar d ≠ 'I' := by
  interval_cases d <;> decide

theorem toDigitsCore_spec (fuel : Nat) :
    ∀ (n : Nat) (ds : List Char), n < fuel →
      ∃ L, Nat.toDigitsCore 10 fuel n ds = L ++ ds ∧ L ≠ [] ∧
        (∀ c ∈ L, ∃ d, d < 10 ∧ c = Nat.digitChar d) ∧
        ∃ k, ∀ a, L.foldl (fun acc c => acc.bind fun a =>
          (digitValue 10 c).map fun d => 10 * a + d) (some a) = some (a * k + n) := by
  induction fuel with
  | zero => intro n ds h; omega
  | succ fuel ih =>
    intro n ds h
    simp only [Nat.toDigitsCore]
    have hd : n % 10 < 10 := Nat.mod_lt _ (by decide)
    by_cases h0 : n / 10 = 0
    · simp only [h0, if_true]
      refine ⟨[Nat.digitChar (n % 10)], rfl, by simp, ?_, 10, ?_⟩
      · intro c hc
        exact ⟨n % 10, hd, by simpa using hc⟩
      · intro a
        simp only [List.foldl, Option.some_bind, (digitChar_spec _ hd).1, Option.map_some']
        congr 1
        omega
    · simp only [h0, if_false]
      have hlt : n / 10 < fuel := by omega
      obtain ⟨L, hL, hne, hall, k, hk⟩ := ih (n / 10) (Nat.digitChar (n % 10) :: ds) hlt
      refine ⟨L ++ [Nat.digitChar (n % 10)], by simp [hL], by simp, ?_, 10 * k, ?_⟩
      · intro c hc
        rcases List.mem_append.mp hc with hc | hc
        · exact hall c hc
        · exact ⟨n % 10, hd, by simpa using hc⟩
      · intro a
        simp only [List.foldl_append, hk, List.foldl, Option.some_bind,
          (digitChar_spec _ hd).1, Option.map_some']
        congr 1
        have := Nat.div_add_mod n 10
        nlinarith [Nat.div_add_mod n 10]

theorem repr_digits (n : Nat) :
    (Nat.repr n).data ≠ [] ∧ (∀ c ∈ (Nat.repr n).data, ∃ d, d < 10 ∧ c = Nat.digitChar d) ∧
      digitsValue 10 (Nat.repr n).data = some n := by
  obtain ⟨L, hL, hne, hall, k, hk⟩ := toDigitsCore_spec (n + 1) n [] (Nat.lt_succ_self n)
  have hdata : (Nat.repr n).data = L := by
    simp [Nat.repr, Nat.toDigits, List.asString, hL]
  rw [hdata]
  refine ⟨hne, hall, ?_⟩
  cases L with
  | nil => exact absurd rfl hne
  | cons c cs =>
    have := hk 0
    simpa [digitsValue] using this

theorem trimChars_eq_self (cs : List Char) (h : ∀ c ∈ cs, isWhiteSpace c = false) :
    trimChars cs = cs := by
  have drop : ∀ l : List Char, (∀ c ∈ l, isWhiteSpace c = false) →
      l.dropWhile isWhiteSpace = l := by
    intro l hl
    cases l with
    | nil => rfl
    | cons a l => simp [List.dropWhile_cons, hl a (List.mem_cons_self _ _)]
  unfold trimChars
  rw [drop cs h, drop cs.reverse (fun c hc => h c (List.mem_reverse.mp hc)), List.reverse_reverse]

theorem parseUnsignedDecimal_digits (cs : List Char) (n : Nat)
    (hall : ∀ c ∈ cs, c.isDigit = true) (hval : digitsValue 10 cs = some n) :
    parseUnsignedDecimal cs = some (n, 0) := by
  have h1 : cs.takeWhile Char.isDigit = cs := List.takeWhile_eq_self_iff.mpr hall
  have h2 : cs.dropWhile Char.isDigit = [] := List.dropWhile_eq_nil_iff.mpr hall
  simp [parseUnsignedDecimal, h1, h2, hval]

theorem isNegative_cons (c : Char) (cs : List Char) :
    isNegative (c :: cs) = decide (c = '-') := by
  unfold isNegative
  split
  · rename_i h; cases h; rfl
  · rename_i h
    by_cases hc : c = '-'
    · exact absurd (hc ▸ rfl) (h cs)
    · simp [hc]

theorem dropSign_cons (c : Char) (cs : List Char) :
    dropSign (c :: cs) = if c = '+' ∨ c = '-' then cs else c :: cs := by
  unfold dropSign
  split
  · rename_i h; cases h; rfl
  · rename_i h; cases h; rfl
  · rename_i h1 h2
    have hp : c ≠ '+' := fun hc => h1 cs (hc ▸ rfl)
    have hm : c ≠ '-' := fun hc => h2 cs (hc ▸ rfl)
    simp [hp, hm]

theorem repr_chars (n : Nat) :
    (∀ c ∈ (Nat.repr n).data, c.isDigit = true) ∧
      (∀ c ∈ (Nat.repr n).data, isWhiteSpace c = false) ∧
      ∃ c cs, (Nat.repr n).data = c :: cs ∧ c ≠ '-' ∧ c ≠ '+' ∧ c ≠ 'I' := by
  obtain ⟨hne, hall, -⟩ := repr_digits n
  refine ⟨?_, ?_, ?_⟩
  · intro c hc
    obtain ⟨d, hd, rfl⟩ := hall c hc
    exact (digitChar_spec d hd).2.1
  · intro c hc
    obtain ⟨d, hd, rfl⟩ := hall c hc
    exact (digitChar_spec d hd).2.2.1
  · cases hcs : (Nat.repr n).data with
    | nil => exact absurd hcs hne
    | cons c cs =>
      obtain ⟨d, hd, rfl⟩ := hall c (by rw [hcs]; exact List.mem_cons_self _ _)
      exact ⟨_, _, rfl, (digitChar_spec d hd).2.2.2⟩

theorem parseDecimalLiteral_digits (sign : List Char) (n : Nat)
    (hsign : sign = [] ∨ sign = ['-']) :
    parseDecimalLiteral (sign ++ (Nat.repr n).data) =
      some (.finite (decide (sign = ['-'])) n 0) := by
  obtain ⟨hdig, -, c, cs, hcs, hm, hpl, hI⟩ := repr_chars n
  have hp := parseUnsignedDecimal_digits _ n hdig (repr_digits n).2.2
  rw [hcs] at hp ⊢
  have hinf : c :: cs ≠ "Infinity".data := by
    intro h
    have := congrArg List.head? h
    exact hI (by simpa using this)
  unfold parseDecimalLiteral
  rcases hsign with rfl | rfl
  · simp [isNegative_cons, dropSign_cons, hm, hpl, hinf, hp]
  · simp [isNegative_cons, dropSign_cons, hinf, hp]

theorem stringToNumber_natRepr (n : Nat) :
    stringToNumber (Nat.repr n) = .finite false n 0 := by
  obtain ⟨-, hws, c, cs, hcs, -⟩ := repr_chars n
  have h := parseDecimalLiteral_digits [] n (Or.inl rfl)
  simp only [List.nil_append] at h
  unfold stringToNumber
  simp only [trimChars_eq_self _ hws, h]
  simp [hcs]

theorem stringToNumber_negRepr (n : Nat) :
    stringToNumber ("-" ++ Nat.repr n) = .finite true n 0 := by
  obtain ⟨-, hws, -⟩ := repr_chars n
  have h := parseDecimalLiteral_digits ['-'] n (Or.inr rfl)
  have hdata : ("-" ++ Nat.repr n).data = ['-'] ++ (Nat.repr n).data := by
    simp [String.data_append]
  have hws' : ∀ c ∈ ['-'] ++ (Nat.repr n).data, isWhiteSpace c = false := by
    intro c hc
    rcases List.mem_append.mp hc with hc | hc
    · rw [List.mem_singleton.mp hc]; decide
    · exact hws c hc
  unfold stringToNumber
  simp only [hdata, trimChars_eq_self _ hws', h]
  simp

theorem leZero_intRepr (n : Int) : leZero n.repr = decide (n ≤ 0) := by
  cases n with
  | ofNat m =>
    have h : leZero (Int.ofNat m).repr = (m == 0) := by
      simp only [Int.repr, leZero, stringToNumber_natRepr, JSNumber.leZero, roundsToZero,
        Bool.false_or]
      have h0 : decide ((0 : Int) < 0) = false := by decide
      rw [h0, Bool.false_and, Bool.or_false]
    rw [h]
    cases m with
    | zero => rfl
    | succ m =>
      have : ¬ (Int.ofNat (m + 1) ≤ 0) := by
        simp only [Int.ofNat_eq_coe]
        omega
      simp [this]
  | negSucc m =>
    simp only [Int.repr, leZero, stringToNumber_negRepr, JSNumber.leZero]
    simp [Int.negSucc_lt_zero, Int.le_of_lt]

/-! ## Lemmas on the lists of calls -/

theorem mem_ite_single {α : Type} (x a : α) (c : Prop) [Decidable c] (l : List α) :
    x ∈ (if c then [a] else l) ↔ (c ∧ x = a) ∨ (¬ c ∧ x ∈ l) := by
  split <;> simp [*]

theorem ite_single_eq_nil {α : Type} (a : α) (c : Prop) [Decidable c] (l : List α) :
    (if c then [a] else l) = [] ↔ ¬ c ∧ l = [] := by
  split <;> simp [*]

theorem length_rule_iff (s : String) (n : Nat) (hn : 0 < n) :
    (¬ s = "" ∧ ¬ jsLength s < n) ↔ n ≤ jsLength s := by
  constructor
  · rintro ⟨-, h⟩
    omega
  · intro h
    refine ⟨?_, by omega⟩
    rintro rfl
    rw [jsLength_empty] at h
    omega

theorem registrationErrors_eq_nil (i : RegistrationInput) :
    registrationErrors i = [] ↔
      (3 ≤ jsLength (jsTrim i.username) ∧ 6 ≤ jsLength i.password ∧
        i.confirmPassword = i.password ∧ jsTrim i.fullName ≠ "" ∧ jsTrim i.address ≠ "" ∧
        IsPincode (jsTrim i.pincode)) := by
  have hp : IsPincode (jsTrim i.pincode) → jsTrim i.pincode ≠ "" := by
    intro h he
    rw [he] at h
    exact h
  simp only [registrationErrors, List.append_eq_nil, ite_single_eq_nil, and_true,
    length_rule_iff _ 3 (by decide), length_rule_iff _ 6 (by decide), ne_eq, not_not,
    pincode_test_iff, and_assoc]
  constructor
  · rintro ⟨h1, h2, h3, h4, h5, -, h6⟩
    exact ⟨h1, h2, h3.symm, h4, h5, h6⟩
  · rintro ⟨h1, h2, h3, h4, h5, h6⟩
    exact ⟨h1, h2, h3.symm, h4, h5, hp h6, h6⟩

theorem registrationErrors_fields (i : RegistrationInput) :
    ∀ c ∈ registrationErrors i, c.1 ∈ registrationFields := by
  rintro ⟨f, m⟩ hc
  simp only [registrationErrors, List.mem_append, mem_ite_single, List.mem_nil_iff,
    Prod.mk.injEq] at hc
  simp only [registrationFields, List.mem_cons, List.mem_nil_iff, or_false]
  tauto

theorem loginErrors_fields (i : LoginInput) : ∀ c ∈ loginErrors i, c.1 ∈ loginFields := by
  rintro ⟨f, m⟩ hc
  simp only [loginErrors, List.mem_append, mem_ite_single, List.mem_nil_iff,
    Prod.mk.injEq] at hc
  simp only [loginFields, List.mem_cons, List.mem_nil_iff, or_false]
  tauto

theorem addLotErrors_fields (i : AddLotInput) : ∀ c ∈ addLotErrors i, c.1 ∈ addLotFields := by
  rintro ⟨f, m⟩ hc
  simp only [addLotErrors, List.mem_append, mem_ite_single, List.mem_nil_iff,
    Prod.mk.injEq] at hc
  simp only [addLotFields, List.mem_cons, List.mem_nil_iff, or_false]
  tauto

theorem runPass_decorable (calls : List (String × String)) (doc : Document)
    (h : ∀ c ∈ calls, Decorable c.1 doc) : (runPass calls doc).1 = true ↔ calls = [] := by
  rw [runPass_fst]
  constructor
  · intro hall
    cases calls with
    | nil => rfl
    | cons c cs =>
      have h1 := h c (List.mem_cons_self _ _)
      have h2 := hall c (List.mem_cons_self _ _)
      unfold Decorable at h1
      rw [h2] at h1
      cases h1
  · rintro rfl c hc
    cases hc

theorem runPass_false (calls : List (String × String)) (doc : Document) (c : String × String)
    (hc : c ∈ calls) (hd : Decorable c.1 doc) : (runPass calls doc).1 = false := by
  cases hb : (runPass calls doc).1 with
  | false => rfl
  | true =>
    have h := (runPass_fst calls doc).mp hb c hc
    unfold Decorable at hd
    rw [h] at hd
    cases hd

theorem intRepr_ne_empty (n : Int) : n.repr ≠ "" := by
  cases n with
  | ofNat m =>
    intro h
    exact (repr_digits m).1 (by simpa [Int.repr] using congrArg String.data h)
  | negSucc m =>
    intro h
    have := congrArg String.data h
    simp [Int.repr, String.data_append] at this

theorem validate_of_runPass (calls : List (String × String)) (doc : Document) (b : Bool)
    (h : (runPass calls doc).1 = b) : some (runPass calls doc) = some (b, (runPass calls doc).2) := by
  rw [← h]

/-! ## Registration -/

/-- C1: on a document whose registration fields hold the record `i`,
`validateRegistrationForm` issues no `showError` call and returns `true` exactly
when the trimmed username has at least 3 code units, the password has at least
6, the confirmation equals the password, the trimmed full name and address are
not empty and the trimmed pincode is six digits with a first digit from 1 to 9;
the payload `abc` / `abc123` / `abc123` / `560001` with any non-blank name and
address gives no error. -/
theorem registration_valid_iff (doc : Document) (i : RegistrationInput)
    (hread : readRegistration doc = some i) :
    ((registrationErrors i = [] ∧ ∃ doc', validateRegistrationForm doc = some (true, doc')) ↔
      (3 ≤ jsLength (jsTrim i.username) ∧ 6 ≤ jsLength i.password ∧
        i.confirmPassword = i.password ∧ jsTrim i.fullName ≠ "" ∧ jsTrim i.address ≠ "" ∧
        IsPincode (jsTrim i.pincode))) ∧
    (∀ fullName address : String, jsTrim fullName ≠ "" → jsTrim address ≠ "" →
      registrationErrors ⟨"abc", "abc123", "abc123", fullName, address, "560001"⟩ = []) := by
  refine ⟨?_, ?_⟩
  · rw [← registrationErrors_eq_nil]
    constructor
    · exact fun h => h.1
    · intro h
      refine ⟨h, (runPass (registrationErrors i) doc).2, ?_⟩
      rw [validateRegistrationForm_eq doc i hread]
      exact validate_of_runPass _ _ _ ((runPass_fst _ _).mpr (by rw [h]; intro c hc; cases hc))
  · intro f a hf ha
    rw [registrationErrors_eq_nil]
    have h3 : 3 ≤ jsLength (jsTrim "abc") := by decide
    have h6 : 6 ≤ jsLength "abc123" := by decide
    have hp : pincodePattern.test (jsTrim "560001") = true := by decide
    exact ⟨h3, h6, rfl, hf, ha, (pincode_test_iff _).mp hp⟩

/-- Witness of C1: the sample registration page with the valid payload is read
back, and the validator returns `true` on it. -/
theorem registration_valid_iff_witness :
    readRegistration (registrationPage validRegistration) = some validRegistration ∧
      (registrationErrors validRegistration = [] ∧
        ∃ doc', validateRegistrationForm (registrationPage validRegistration) = some (true, doc')) :=
  ⟨rfl, (registration_valid_iff (registrationPage validRegistration) validRegistration rfl).1.mpr
    ⟨by decide, by decide, rfl, by decide, by decide, (pincode_test_iff _).mp (by decide)⟩⟩

/-- C2: each required-field message of the registration form is issued exactly
when its field is empty (after trimming, except for the password, which is not
trimmed), whatever the other fields hold. -/
theorem registration_required_messages (i : RegistrationInput) :
    (("username", "Username is required") ∈ registrationErrors i ↔ jsTrim i.username = "") ∧
    (("password", "Password is required") ∈ registrationErrors i ↔ i.password = "") ∧
    (("full_name", "Full name is required") ∈ registrationErrors i ↔ jsTrim i.fullName = "") ∧
    (("address", "Address is required") ∈ registrationErrors i ↔ jsTrim i.address = "") ∧
    (("pincode", "Pincode is required") ∈ registrationErrors i ↔ jsTrim i.pincode = "") := by
  simp [registrationErrors, mem_ite_single]

/-- C3: in both the registration and the add-lot validator, a pincode whose
trimmed value `p` is not empty gets no error exactly when `p` is six characters,
the first in `1..9` and the others in `0..9`; otherwise its only error is
`Invalid pincode format`.  `012345` and `12345` are rejected and `560001` is
accepted. -/
theorem pincode_rule (p : String) (i : RegistrationInput) (j : AddLotInput)
    (hp : jsTrim p ≠ "") :
    (((∀ m, ("pincode", m) ∉ registrationErrors { i with pincode := p }) ↔
        IsPincode (jsTrim p)) ∧
      (¬ IsPincode (jsTrim p) → ∀ m, ("pincode", m) ∈ registrationErrors { i with pincode := p } ↔
        m = "Invalid pincode format")) ∧
    (((∀ m, ("pincode", m) ∉ addLotErrors { j with pincode := p }) ↔ IsPincode (jsTrim p)) ∧
      (¬ IsPincode (jsTrim p) → ∀ m, ("pincode", m) ∈ addLotErrors { j with pincode := p } ↔
        m = "Invalid pincode format")) ∧
    (("pincode", "Invalid pincode format") ∈ registrationErrors { i with pincode := "012345" } ∧
      ("pincode", "Invalid pincode format") ∈ registrationErrors { i with pincode := "12345" } ∧
      ∀ m, ("pincode", m) ∉ registrationErrors { i with pincode := "560001" }) ∧
    (("pincode", "Invalid pincode format") ∈ addLotErrors { j with pincode := "012345" } ∧
      ("pincode", "Invalid pincode format") ∈ addLotErrors { j with pincode := "12345" } ∧
      ∀ m, ("pincode", m) ∉ addLotErrors { j with pincode := "560001" }) := by
  have h0 : pincodePattern.test (jsTrim "012345") = false := by decide
  have h1 : pincodePattern.test (jsTrim "12345") = false := by decide
  have h2 : pincodePattern.test (jsTrim "560001") = true := by decide
  have e0 : jsTrim "012345" ≠ "" := by decide
  have e1 : jsTrim "12345" ≠ "" := by decide
  have e2 : jsTrim "560001" ≠ "" := by decide
  refine ⟨⟨?_, ?_⟩, ⟨?_, ?_⟩, ⟨?_, ?_, ?_⟩, ⟨?_, ?_, ?_⟩⟩
  · simp [registrationErrors, mem_ite_single, pincode_test_iff, hp]
  · intro hn m
    simp [registrationErrors, mem_ite_single, pincode_test_iff, hp, hn]
  · simp [addLotErrors, mem_ite_single, pincode_test_iff, hp]
  · intro hn m
    simp [addLotErrors, mem_ite_single, pincode_test_iff, hp, hn]
  · simp [registrationErrors, mem_ite_single, h0, e0]
  · simp [registrationErrors, mem_ite_single, h1, e1]
  · simp [registrationErrors, mem_ite_single, h2, e2]
  · simp [addLotErrors, mem_ite_single, h0, e0]
  · simp [addLotErrors, mem_ite_single, h1, e1]
  · simp [addLotErrors, mem_ite_single, h2, e2]

/-- Witness of C3: the rule at the pincode ` 560001 ` typed with surrounding
blanks. -/
theorem pincode_rule_witness :
    jsTrim " 560001 " ≠ "" ∧
      ((∀ m, ("pincode", m) ∉ registrationErrors { validRegistration with pincode := " 560001 " }) ↔
        IsPincode (jsTrim " 560001 ")) :=
  ⟨by decide, (pincode_rule " 560001 " validRegistration validAddLot (by decide)).1.1⟩

/-- C4: the registration validator flags `confirm_password` with
`Passwords do not match` exactly when the password and its confirmation are
different strings, whatever the password is. -/
theorem confirm_password_iff (i : RegistrationInput) :
    (("confirm_password", "Passwords do not match") ∈ registrationErrors i ↔
      i.password ≠ i.confirmPassword) ∧
    (∀ m, ("confirm_password", m) ∈ registrationErrors i → m = "Passwords do not match") := by
  simp [registrationErrors, mem_ite_single]

/-- C5: for a username that is not blank, the registration validator reports
`Username must be at least 3 characters` (and nothing else on `username`) when
the trimmed value has fewer than 3 code units, and reports nothing on `username`
when it has 3 or more; the length is taken after trimming, so `  ab  ` fails. -/
theorem username_length_rule (i : RegistrationInput) (h : jsTrim i.username ≠ "") :
    (jsLength (jsTrim i.username) < 3 → ∀ m, ("username", m) ∈ registrationErrors i ↔
      m = "Username must be at least 3 characters") ∧
    (3 ≤ jsLength (jsTrim i.username) → ∀ m, ("username", m) ∉ registrationErrors i) ∧
    ("username", "Username must be at least 3 characters") ∈
      registrationErrors { i with username := "  ab  " } := by
  have e : jsTrim "  ab  " ≠ "" := by decide
  have l : jsLength (jsTrim "  ab  ") < 3 := by decide
  refine ⟨?_, ?_, ?_⟩
  · intro hl m
    simp [registrationErrors, mem_ite_single, h, hl]
  · intro hl m
    simp [registrationErrors, mem_ite_single, h, Nat.not_lt.mpr hl]
  · simp [registrationErrors, mem_ite_single, e, l]

/-- Witness of C5: a username of two characters and one of three. -/
theorem username_length_rule_witness :
    (jsTrim "ab" ≠ "" ∧ jsLength (jsTrim "ab") < 3 ∧
      ("username", "Username must be at least 3 characters") ∈
        registrationErrors { validRegistration with username := "ab" }) ∧
    (jsTrim "abc" ≠ "" ∧ 3 ≤ jsLength (jsTrim "abc") ∧
      ∀ m, ("username", m) ∉ registrationErrors { validRegistration with username := "abc" }) :=
  ⟨⟨by decide, by decide,
      ((username_length_rule { validRegistration with username := "ab" } (by decide)).1
        (by decide) _).mpr rfl⟩,
    ⟨by decide, by decide,
      (username_length_rule { validRegistration with username := "abc" } (by decide)).2.1
        (by decide)⟩⟩

/-- C6: for a password that is not empty, the registration validator reports
`Password must be at least 6 characters` (and nothing else on `password`) when
it has fewer than 6 code units, and reports nothing on `password` when it has 6
or more; `abc12` fails and `abc123` passes. -/
theorem password_length_rule (i : RegistrationInput) (h : i.password ≠ "") :
    (jsLength i.password < 6 → ∀ m, ("password", m) ∈ registrationErrors i ↔
      m = "Password must be at least 6 characters") ∧
    (6 ≤ jsLength i.password → ∀ m, ("password", m) ∉ registrationErrors i) ∧
    ("password", "Password must be at least 6 characters") ∈
      registrationErrors { i with password := "abc12" } ∧
    (∀ m, ("password", m) ∉ registrationErrors { i with password := "abc123" }) := by
  have l5 : jsLength "abc12" < 6 := by decide
  have l6 : ¬ jsLength "abc123" < 6 := by decide
  refine ⟨?_, ?_, ?_, ?_⟩
  · intro hl m
    simp [registrationErrors, mem_ite_single, h, hl]
  · intro hl m
    simp [registrationErrors, mem_ite_single, h, Nat.not_lt.mpr hl]
  · simp [registrationErrors, mem_ite_single, l5]
  · simp [registrationErrors, mem_ite_single, l6]

/-- Witness of C6: the password `abc12` of five characters. -/
theorem password_length_rule_witness :
    "abc12" ≠ "" ∧ jsLength "abc12" < 6 ∧
      ∀ m, ("password", m) ∈ registrationErrors { validRegistration with password := "abc12" } ↔
        m = "Password must be at least 6 characters" :=
  ⟨by decide, by decide,
    (password_length_rule { validRegistration with password := "abc12" } (by decide)).1
      (by decide)⟩

/-! ## Add-lot and the return value -/

/-- On a document whose add-lot fields hold the record `i`
and whose numeric controls are still found by `showError` after
`clearFormErrors`: a `price_per_hour` that is the decimal string of an integer
`n` gets `Price per hour must be greater than 0` and makes `validateAddLotForm`
return `false` when `n ≤ 0`, and gets no error when `0 < n`; the same holds for
`max_spots` with `Maximum spots must be greater than 0`. -/
theorem addLot_integer_rule (doc : Document) (i : AddLotInput) (n : Int)
    (hread : readAddLot doc = some i) (hprice : Decorable "price_per_hour" doc)
    (hspots : Decorable "max_spots" doc) :
    (i.pricePerHour = n.repr →
      (n ≤ 0 → ("price_per_hour", "Price per hour must be greater than 0") ∈ addLotErrors i ∧
        ∃ doc', validateAddLotForm doc = some (false, doc')) ∧
      (0 < n → ∀ m, ("price_per_hour", m) ∉ addLotErrors i)) ∧
    (i.maxSpots = n.repr →
      (n ≤ 0 → ("max_spots", "Maximum spots must be greater than 0") ∈ addLotErrors i ∧
        ∃ doc', validateAddLotForm doc = some (false, doc')) ∧
      (0 < n → ∀ m, ("max_spots", m) ∉ addLotErrors i)) := by
  have hne := intRepr_ne_empty n
  have hle := leZero_intRepr n
  have hret : ∀ c ∈ addLotErrors i, Decorable c.1 doc →
      ∃ doc', validateAddLotForm doc = some (false, doc') := by
    intro c hc hd
    refine ⟨(runPass (addLotErrors i) doc).2, ?_⟩
    rw [validateAddLotForm_eq doc i hread]
    exact validate_of_runPass _ _ _ (runPass_false _ _ c hc hd)
  constructor
  · intro hv
    rw [← hv] at hne hle
    constructor
    · intro hn
      have hmem : ("price_per_hour", "Price per hour must be greater than 0") ∈
          addLotErrors i := by
        simp [addLotErrors, mem_ite_single, hne, hle, hn]
      exact ⟨hmem, hret _ hmem hprice⟩
    · intro hn m
      simp [addLotErrors, mem_ite_single, hne, hle, hn]
  · intro hv
    rw [← hv] at hne hle
    constructor
    · intro hn
      have hmem : ("max_spots", "Maximum spots must be greater than 0") ∈ addLotErrors i := by
        simp [addLotErrors, mem_ite_single, hne, hle, hn]
      exact ⟨hmem, hret _ hmem hspots⟩
    · intro hn m
      simp [addLotErrors, mem_ite_single, hne, hle, hn]

/-- Example: the sample add-lot page with the price `-5`. -/
theorem addLot_integer_rule_example :
    readAddLot (addLotPage { validAddLot with pricePerHour := "-5" }) =
        some { validAddLot with pricePerHour := "-5" } ∧
      Decorable "price_per_hour" (addLotPage { validAddLot with pricePerHour := "-5" }) ∧
      Decorable "max_spots" (addLotPage { validAddLot with pricePerHour := "-5" }) ∧
      "-5" = (-5 : Int).repr ∧ (-5 : Int) ≤ 0 ∧
      (("price_per_hour", "Price per hour must be greater than 0") ∈
          addLotErrors { validAddLot with pricePerHour := "-5" } ∧
        ∃ doc', validateAddLotForm (addLotPage { validAddLot with pricePerHour := "-5" }) =
          some (false, doc')) :=
  ⟨rfl, by decide, by decide, by decide, by decide,
    ((addLot_integer_rule (addLotPage { validAddLot with pricePerHour := "-5" })
      { validAddLot with pricePerHour := "-5" } (-5) rfl (by decide) (by decide)).1
        (by decide)).1 (by decide)⟩

/-- C7, evaluated on the code: on the add-lot page whose price control lies
inside an element of class `form-error`, with the price `-5`, the decimal string
of the integer -5, and every other field valid, the record is read, the call
`Price per hour must be greater than 0` is issued, `clearFormErrors` has
detached the price control, and `validateAddLotForm` returns `true`, where C7
says `false`. -/
theorem addLot_nonpositive_accepted :
    readAddLot (flaggedAddLotPage { validAddLot with pricePerHour := "-5" }) =
        some { validAddLot with pricePerHour := "-5" } ∧
      "-5" = (-5 : Int).repr ∧
      addLotErrors { validAddLot with pricePerHour := "-5" } =
        [("price_per_hour", "Price per hour must be greater than 0")] ∧
      getElementById "price_per_hour"
          (clearFormErrors (flaggedAddLotPage { validAddLot with pricePerHour := "-5" })) =
        none ∧
      (validateAddLotForm (flaggedAddLotPage { validAddLot with pricePerHour := "-5" })).map
        Prod.fst = some true :=
  ⟨rfl, by decide, by decide, rfl, by decide⟩

/-- C8, evaluated on the code: the price `abc` is no number, yet the add-lot
validator issues no call for it and returns `true` on a page whose other fields
are valid. -/
theorem addLot_accepts_non_numeric :
    stringToNumber "abc" = JSNumber.nan ∧
      addLotErrors { validAddLot with pricePerHour := "abc" } = [] ∧
      (validateAddLotForm (addLotPage { validAddLot with pricePerHour := "abc" })).map
        Prod.fst = some true := by
  refine ⟨by decide, by decide, by decide⟩

/-- On a document whose fields hold the record read and are
still found by `showError` after `clearFormErrors`: for each of the three
validators the pass returns a result, and the boolean is `true` exactly when the
validator issued no `showError` call, whatever decorations the document carried
before. -/
theorem validity_iff_no_call :
    (∀ (doc : Document) (i : RegistrationInput), readRegistration doc = some i →
      (∀ f ∈ registrationFields, Decorable f doc) →
      ∃ b doc', validateRegistrationForm doc = some (b, doc') ∧
        (b = true ↔ registrationErrors i = [])) ∧
    (∀ (doc : Document) (i : LoginInput), readLogin doc = some i →
      (∀ f ∈ loginFields, Decorable f doc) →
      ∃ b doc', validateLoginForm doc = some (b, doc') ∧ (b = true ↔ loginErrors i = [])) ∧
    (∀ (doc : Document) (i : AddLotInput), readAddLot doc = some i →
      (∀ f ∈ addLotFields, Decorable f doc) →
      ∃ b doc', validateAddLotForm doc = some (b, doc') ∧ (b = true ↔ addLotErrors i = [])) := by
  refine ⟨?_, ?_, ?_⟩
  · intro doc i hread hdec
    refine ⟨(runPass (registrationErrors i) doc).1, (runPass (registrationErrors i) doc).2, ?_,
      runPass_decorable (registrationErrors i) doc
      fun c hc => hdec _ (registrationErrors_fields i c hc)⟩
    rw [validateRegistrationForm_eq doc i hread]
  · intro doc i hread hdec
    refine ⟨(runPass (loginErrors i) doc).1, (runPass (loginErrors i) doc).2, ?_,
      runPass_decorable (loginErrors i) doc
      fun c hc => hdec _ (loginErrors_fields i c hc)⟩
    rw [validateLoginForm_eq doc i hread]
  · intro doc i hread hdec
    refine ⟨(runPass (addLotErrors i) doc).1, (runPass (addLotErrors i) doc).2, ?_,
      runPass_decorable (addLotErrors i) doc
      fun c hc => hdec _ (addLotErrors_fields i c hc)⟩
    rw [validateAddLotForm_eq doc i hread]

/-- Example: the sample login page, which still carries the message of an
earlier pass, with a valid payload. -/
theorem validity_iff_no_call_example :
    readLogin (loginPage validLogin) = some validLogin ∧
      (∀ f ∈ loginFields, Decorable f (loginPage validLogin)) ∧
      ∃ b doc', validateLoginForm (loginPage validLogin) = some (b, doc') ∧
        (b = true ↔ loginErrors validLogin = []) :=
  ⟨rfl, by decide, validity_iff_no_call.2.1 (loginPage validLogin) validLogin rfl (by decide)⟩

/-- C9, evaluated on the code: on the registration page whose username control
lies inside an element of class `form-error`, with an empty username and every
other field valid, all six fields read exist and the record is read, the call
`Username is required` is issued, `clearFormErrors` has detached the username
control so that `showError` finds no element, and `validateRegistrationForm`
returns `true`, although a call was issued. -/
theorem validity_lost_when_detached :
    readRegistration (flaggedRegistrationPage { validRegistration with username := "" }) =
        some { validRegistration with username := "" } ∧
      (∀ f ∈ registrationFields,
        (getElementById f
          (flaggedRegistrationPage { validRegistration with username := "" })).isSome) ∧
      registrationErrors { validRegistration with username := "" } =
        [("username", "Username is required")] ∧
      getElementById "username"
          (clearFormErrors
            (flaggedRegistrationPage { validRegistration with username := "" })) = none ∧
      (validateRegistrationForm
          (flaggedRegistrationPage { validRegistration with username := "" })).map
        Prod.fst = some true :=
  ⟨rfl, by decide, by decide, rfl, by decide⟩

/-- C10: in one pass of any of the three validators, no field identifier gets
more than one message. -/
theorem one_message_per_field (i : RegistrationInput) (l : LoginInput) (a : AddLotInput) :
    ((registrationErrors i).map Prod.fst).Nodup ∧ ((loginErrors l).map Prod.fst).Nodup ∧
      ((addLotErrors a).map Prod.fst).Nodup := by
  refine ⟨?_, ?_, ?_⟩
  · unfold registrationErrors
    split_ifs <;> decide
  · unfold loginErrors
    split_ifs <;> decide
  · unfold addLotErrors
    split_ifs <;> decide

/-! ## Login -/

theorem loginErrors_eq_nil (i : LoginInput) :
    loginErrors i = [] ↔ jsTrim i.username ≠ "" ∧ i.password ≠ "" := by
  simp [loginErrors, List.append_eq_nil, ite_single_eq_nil]

/-- On a document whose login fields hold the record `i` and
are still found by `showError` after `clearFormErrors`: `validateLoginForm`
returns `true` exactly when the trimmed username and the password are not empty;
its only calls are `Username is required` and `Password is required`; there is
no length rule, a username and a password of one character are accepted. -/
theorem login_valid_iff (doc : Document) (i : LoginInput) (hread : readLogin doc = some i)
    (hdec : ∀ f ∈ loginFields, Decorable f doc) :
    ((∃ doc', validateLoginForm doc = some (true, doc')) ↔
      (jsTrim i.username ≠ "" ∧ i.password ≠ "")) ∧
    (∀ c ∈ loginErrors i, c = ("username", "Username is required") ∨
      c = ("password", "Password is required")) ∧
    (∀ u p : String, jsTrim u ≠ "" → p ≠ "" → loginErrors ⟨u, p⟩ = []) ∧
    loginErrors ⟨"a", "b"⟩ = [] := by
  refine ⟨?_, ?_, ?_, by decide⟩
  · rw [← loginErrors_eq_nil, validateLoginForm_eq doc i hread,
      ← runPass_decorable (loginErrors i) doc fun c hc => hdec _ (loginErrors_fields i c hc)]
    constructor
    · rintro ⟨doc', h⟩
      exact congrArg Prod.fst (Option.some.inj h)
    · intro h
      exact ⟨_, validate_of_runPass _ _ _ h⟩
  · rintro ⟨f, m⟩ hc
    simp only [loginErrors, List.mem_append, mem_ite_single, List.mem_nil_iff] at hc
    tauto
  · intro u p hu hp
    exact (loginErrors_eq_nil ⟨u, p⟩).mpr ⟨hu, hp⟩

/-- Example: the sample login page with a username and a password of one
character. -/
theorem login_valid_iff_example :
    readLogin (loginPage validLogin) = some validLogin ∧
      (∀ f ∈ loginFields, Decorable f (loginPage validLogin)) ∧
      ∃ doc', validateLoginForm (loginPage validLogin) = some (true, doc') :=
  ⟨rfl, by decide,
    (login_valid_iff (loginPage validLogin) validLogin rfl (by decide)).1.mpr
      ⟨by decide, by decide⟩⟩

/-- C13, evaluated on the code: on the login page whose form element carries the
class `form-error`, with an empty username and an empty password, the record is
read, both required-field calls are issued, `clearFormErrors` has detached the
form with its controls, and `validateLoginForm` returns `true`, where C13 says
`false`. -/
theorem login_empty_accepted :
    readLogin (flaggedLoginPage ⟨"", ""⟩) = some ⟨"", ""⟩ ∧
      loginErrors ⟨"", ""⟩ =
        [("username", "Username is required"), ("password", "Password is required")] ∧
      clearFormErrors (flaggedLoginPage ⟨"", ""⟩) = [] ∧
      validateLoginForm (flaggedLoginPage ⟨"", ""⟩) = some (true, []) :=
  ⟨rfl, by decide, rfl, rfl⟩

/-! ## Add-lot validity, blank values and independence of the rules -/

theorem addLotErrors_eq_nil (i : AddLotInput) :
    addLotErrors i = [] ↔
      (jsTrim i.name ≠ "" ∧ jsTrim i.address ≠ "" ∧ IsPincode (jsTrim i.pincode) ∧
        (i.pricePerHour ≠ "" ∧ leZero i.pricePerHour = false) ∧
        (i.maxSpots ≠ "" ∧ leZero i.maxSpots = false)) := by
  have hp : IsPincode (jsTrim i.pincode) → jsTrim i.pincode ≠ "" := by
    intro h he
    rw [he] at h
    exact h
  simp only [addLotErrors, List.append_eq_nil, ite_single_eq_nil, and_true, ne_eq, not_not,
    pincode_test_iff, Bool.not_eq_true, and_assoc]
  constructor
  · rintro ⟨h1, h2, -, h3, h4, h5, h6, h7⟩
    exact ⟨h1, h2, h3, h4, h5, h6, h7⟩
  · rintro ⟨h1, h2, h3, h4, h5, h6, h7⟩
    exact ⟨h1, h2, hp h3, h3, h4, h5, h6, h7⟩

theorem jsTrim_blank (s : String) (h : ∀ c ∈ s.data, isWhiteSpace c = true) :
    jsTrim s = "" := by
  have hd : s.data.dropWhile isWhiteSpace = [] := List.dropWhile_eq_nil_iff.mpr h
  simp [jsTrim, trimChars, hd]

/-- On a document whose add-lot fields hold the record `i`
and are still found by `showError` after `clearFormErrors`: `validateAddLotForm`
returns `true` exactly when the trimmed name and address are not empty, the
trimmed pincode is six digits with a first digit from 1 to 9, and
`price_per_hour` and `max_spots` are each not empty and do not satisfy
`value <= 0`; an empty `price_per_hour` or `max_spots` gets its `is required`
message and no other. -/
theorem addLot_valid_iff (doc : Document) (i : AddLotInput) (hread : readAddLot doc = some i)
    (hdec : ∀ f ∈ addLotFields, Decorable f doc) :
    ((∃ doc', validateAddLotForm doc = some (true, doc')) ↔
      (jsTrim i.name ≠ "" ∧ jsTrim i.address ≠ "" ∧ IsPincode (jsTrim i.pincode) ∧
        (i.pricePerHour ≠ "" ∧ leZero i.pricePerHour = false) ∧
        (i.maxSpots ≠ "" ∧ leZero i.maxSpots = false))) ∧
    (i.pricePerHour = "" → ∀ m, ("price_per_hour", m) ∈ addLotErrors i ↔
      m = "Price per hour is required") ∧
    (i.maxSpots = "" → ∀ m, ("max_spots", m) ∈ addLotErrors i ↔
      m = "Maximum spots is required") := by
  refine ⟨?_, ?_, ?_⟩
  · rw [← addLotErrors_eq_nil, validateAddLotForm_eq doc i hread,
      ← runPass_decorable (addLotErrors i) doc fun c hc => hdec _ (addLotErrors_fields i c hc)]
    constructor
    · rintro ⟨doc', h⟩
      exact congrArg Prod.fst (Option.some.inj h)
    · intro h
      exact ⟨_, validate_of_runPass _ _ _ h⟩
  · intro h m
    simp [addLotErrors, mem_ite_single, h]
  · intro h m
    simp [addLotErrors, mem_ite_single, h]

/-- Example: the sample add-lot page with a valid payload, and the same
page with an empty price. -/
theorem addLot_valid_iff_example :
    (readAddLot (addLotPage validAddLot) = some validAddLot ∧
      (∀ f ∈ addLotFields, Decorable f (addLotPage validAddLot)) ∧
      ∃ doc', validateAddLotForm (addLotPage validAddLot) = some (true, doc')) ∧
    ∀ m, ("price_per_hour", m) ∈ addLotErrors { validAddLot with pricePerHour := "" } ↔
      m = "Price per hour is required" :=
  ⟨⟨rfl, by decide,
      (addLot_valid_iff (addLotPage validAddLot) validAddLot rfl (by decide)).1.mpr
        ⟨by decide, by decide, by decide, ⟨by decide, by decide⟩, by decide, by decide⟩⟩,
    (addLot_valid_iff (addLotPage { validAddLot with pricePerHour := "" })
      { validAddLot with pricePerHour := "" } rfl (by decide)).2.1 rfl⟩

/-- C15, evaluated on the code: on the add-lot page whose price control lies
inside an element of class `form-error`, with an empty price and every other
field valid, the record is read, the call `Price per hour is required` is
issued, `clearFormErrors` has detached the price control, and
`validateAddLotForm` returns `true`, where C15 says `false` for an empty
`price_per_hour`. -/
theorem addLot_empty_price_accepted :
    readAddLot (flaggedAddLotPage { validAddLot with pricePerHour := "" }) =
        some { validAddLot with pricePerHour := "" } ∧
      addLotErrors { validAddLot with pricePerHour := "" } =
        [("price_per_hour", "Price per hour is required")] ∧
      getElementById "price_per_hour"
          (clearFormErrors (flaggedAddLotPage { validAddLot with pricePerHour := "" })) =
        none ∧
      (validateAddLotForm (flaggedAddLotPage { validAddLot with pricePerHour := "" })).map
        Prod.fst = some true :=
  ⟨rfl, by decide, rfl, by decide⟩

/-- C16: in the registration validator a username, full name, address or pincode
made of white space only is treated as empty and gets its required-field
message, while the password is taken as typed: a password made of white space
only (so that trimming would empty it) with at least 6 code units and an equal
confirmation gets no `password` and no `confirm_password` error, for instance
six spaces. -/
theorem blank_values_rule (i : RegistrationInput) :
    ((∀ c ∈ i.username.data, isWhiteSpace c = true) →
      ("username", "Username is required") ∈ registrationErrors i) ∧
    ((∀ c ∈ i.fullName.data, isWhiteSpace c = true) →
      ("full_name", "Full name is required") ∈ registrationErrors i) ∧
    ((∀ c ∈ i.address.data, isWhiteSpace c = true) →
      ("address", "Address is required") ∈ registrationErrors i) ∧
    ((∀ c ∈ i.pincode.data, isWhiteSpace c = true) →
      ("pincode", "Pincode is required") ∈ registrationErrors i) ∧
    ((∀ c ∈ i.password.data, isWhiteSpace c = true) → 6 ≤ jsLength i.password →
      i.confirmPassword = i.password →
      jsTrim i.password = "" ∧
        ∀ m, ("password", m) ∉ registrationErrors i ∧
          ("confirm_password", m) ∉ registrationErrors i) ∧
    (∀ m, ("password", m) ∉
        registrationErrors { i with password := "      ", confirmPassword := "      " } ∧
      ("confirm_password", m) ∉
        registrationErrors { i with password := "      ", confirmPassword := "      " }) := by
  have l6 : ¬ jsLength "      " < 6 := by decide
  refine ⟨?_, ?_, ?_, ?_, ?_, ?_⟩
  · intro h
    simp [registrationErrors, mem_ite_single, jsTrim_blank _ h]
  · intro h
    simp [registrationErrors, mem_ite_single, jsTrim_blank _ h]
  · intro h
    simp [registrationErrors, mem_ite_single, jsTrim_blank _ h]
  · intro h
    simp [registrationErrors, mem_ite_single, jsTrim_blank _ h]
  · intro h hl hc
    have hne : i.password ≠ "" := by
      intro he
      rw [he, jsLength_empty] at hl
      omega
    refine ⟨jsTrim_blank _ h, fun m => ?_⟩
    simp [registrationErrors, mem_ite_single, hne, Nat.not_lt.mpr hl, hc]
  · intro m
    simp [registrationErrors, mem_ite_single, l6]

/-- Witness of C16: a username of three spaces, and a password of six spaces
with the same confirmation. -/
theorem blank_values_rule_witness :
    ("username", "Username is required") ∈
        registrationErrors { validRegistration with username := "   " } ∧
      (jsTrim "      " = "" ∧
        ∀ m, ("password", m) ∉
            registrationErrors
              { validRegistration with password := "      ", confirmPassword := "      " } ∧
          ("confirm_password", m) ∉
            registrationErrors
              { validRegistration with password := "      ", confirmPassword := "      " }) :=
  ⟨(blank_values_rule { validRegistration with username := "   " }).1 (by decide),
    (blank_values_rule
      { validRegistration with password := "      ", confirmPassword := "      " }).2.2.2.2.1
      (by decide) (by decide) rfl⟩

/-- C17: in every validator the messages issued for a field depend on the value
of that field only, except for `confirm_password`, whose message depends on the
password and on the confirmation, and really on each of the two: two records
that agree on the field (for `confirm_password`, on both values) get the same
messages for it, whatever their other fields hold. -/
theorem field_rules_independent :
    (∀ (i j : RegistrationInput) (m : String),
      (i.username = j.username →
        (("username", m) ∈ registrationErrors i ↔ ("username", m) ∈ registrationErrors j)) ∧
      (i.password = j.password →
        (("password", m) ∈ registrationErrors i ↔ ("password", m) ∈ registrationErrors j)) ∧
      (i.password = j.password → i.confirmPassword = j.confirmPassword →
        (("confirm_password", m) ∈ registrationErrors i ↔
          ("confirm_password", m) ∈ registrationErrors j)) ∧
      (i.fullName = j.fullName →
        (("full_name", m) ∈ registrationErrors i ↔ ("full_name", m) ∈ registrationErrors j)) ∧
      (i.address = j.address →
        (("address", m) ∈ registrationErrors i ↔ ("address", m) ∈ registrationErrors j)) ∧
      (i.pincode = j.pincode →
        (("pincode", m) ∈ registrationErrors i ↔ ("pincode", m) ∈ registrationErrors j))) ∧
    (∀ (i j : LoginInput) (m : String),
      (i.username = j.username →
        (("username", m) ∈ loginErrors i ↔ ("username", m) ∈ loginErrors j)) ∧
      (i.password = j.password →
        (("password", m) ∈ loginErrors i ↔ ("password", m) ∈ loginErrors j))) ∧
    (∀ (i j : AddLotInput) (m : String),
      (i.name = j.name → (("name", m) ∈ addLotErrors i ↔ ("name", m) ∈ addLotErrors j)) ∧
      (i.address = j.address →
        (("address", m) ∈ addLotErrors i ↔ ("address", m) ∈ addLotErrors j)) ∧
      (i.pincode = j.pincode →
        (("pincode", m) ∈ addLotErrors i ↔ ("pincode", m) ∈ addLotErrors j)) ∧
      (i.pricePerHour = j.pricePerHour →
        (("price_per_hour", m) ∈ addLotErrors i ↔ ("price_per_hour", m) ∈ addLotErrors j)) ∧
      (i.maxSpots = j.maxSpots →
        (("max_spots", m) ∈ addLotErrors i ↔ ("max_spots", m) ∈ addLotErrors j))) ∧
    (("confirm_password", "Passwords do not match") ∈
        registrationErrors { validRegistration with password := "abc124" } ∧
      ("confirm_password", "Passwords do not match") ∈
        registrationErrors { validRegistration with confirmPassword := "abc124" } ∧
      ("confirm_password", "Passwords do not match") ∉ registrationErrors validRegistration) := by
  refine ⟨fun i j m => ⟨?_, ?_, ?_, ?_, ?_, ?_⟩, fun i j m => ⟨?_, ?_⟩,
    fun i j m => ⟨?_, ?_, ?_, ?_, ?_⟩, by decide, by decide, by decide⟩
  · intro h; simp [registrationErrors, mem_ite_single, h]
  · intro h; simp [registrationErrors, mem_ite_single, h]
  · intro h h'; simp [registrationErrors, mem_ite_single, h, h']
  · intro h; simp [registrationErrors, mem_ite_single, h]
  · intro h; simp [registrationErrors, mem_ite_single, h]
  · intro h; simp [registrationErrors, mem_ite_single, h]
  · intro h; simp [loginErrors, mem_ite_single, h]
  · intro h; simp [loginErrors, mem_ite_single, h]
  · intro h; simp [addLotErrors, mem_ite_single, h]
  · intro h; simp [addLotErrors, mem_ite_single, h]
  · intro h; simp [addLotErrors, mem_ite_single, h]
  · intro h; simp [addLotErrors, mem_ite_single, h]
  · intro h; simp [addLotErrors, mem_ite_single, h]

/-- Witness of C17: two registration records that share the username `ab` and
differ in every other field get the same message on `username`. -/
theorem field_rules_independent_witness :
    ("username", "Username must be at least 3 characters") ∈
        registrationErrors ⟨"ab", "", "x", "", "", ""⟩ ↔
      ("username", "Username must be at least 3 characters") ∈
        registrationErrors { validRegistration with username := "ab" } :=
  (field_rules_independent.1 ⟨"ab", "", "x", "", "", ""⟩
    { validRegistration with username := "ab" } _).1 rfl

/-! ## Cancelling the submission -/

theorem submit_of_runPass (calls : List (String × String)) (doc : Document) (e : Event)
    (h : ∀ c ∈ calls, Decorable c.1 doc) :
    (if !(runPass calls doc).1 then e.preventDefault else e) =
      if calls = [] then e else e.preventDefault := by
  by_cases hc : calls = []
  · rw [if_pos hc, (runPass_decorable calls doc h).mpr hc]
    rfl
  · have hb : (runPass calls doc).1 = false := by
      cases hb : (runPass calls doc).1 with
      | false => rfl
      | true => exact absurd ((runPass_decorable calls doc h).mp hb) hc
    rw [if_neg hc, hb]
    rfl

/-- On a document whose fields hold the record read and are
still found by `showError` after `clearFormErrors`: each of the three submit
listeners calls `preventDefault` on the event when the validator issued at
least one `showError` call and leaves the event as it is otherwise; the
`DOMContentLoaded` listener binds each of them to its form exactly when the form
is present. -/
theorem submit_cancels_iff :
    (∀ (doc : Document) (e : Event) (i : RegistrationInput), readRegistration doc = some i →
      (∀ f ∈ registrationFields, Decorable f doc) →
      ∃ doc', registerFormSubmit doc e =
        some (doc', if registrationErrors i = [] then e else e.preventDefault)) ∧
    (∀ (doc : Document) (e : Event) (i : LoginInput), readLogin doc = some i →
      (∀ f ∈ loginFields, Decorable f doc) →
      ∃ doc', loginFormSubmit doc e =
        some (doc', if loginErrors i = [] then e else e.preventDefault)) ∧
    (∀ (doc : Document) (e : Event) (i : AddLotInput), readAddLot doc = some i →
      (∀ f ∈ addLotFields, Decorable f doc) →
      ∃ doc', addLotFormSubmit doc e =
        some (doc', if addLotErrors i = [] then e else e.preventDefault)) ∧
    (∀ (e : Event), e.defaultPrevented = false →
      (e.preventDefault.defaultPrevented = true ∧ e.preventDefault ≠ e)) ∧
    (∀ (doc : Document) (h : Document → Event → Option (Document × Event)),
      (("register-form", h) ∈ domContentLoaded doc ↔
        (getElementById "register-form" doc).isSome ∧ h = registerFormSubmit) ∧
      (("login-form", h) ∈ domContentLoaded doc ↔
        (getElementById "login-form" doc).isSome ∧ h = loginFormSubmit) ∧
      (("add-lot-form", h) ∈ domContentLoaded doc ↔
        (getElementById "add-lot-form" doc).isSome ∧ h = addLotFormSubmit)) := by
  refine ⟨?_, ?_, ?_, ?_, ?_⟩
  · intro doc e i hread hdec
    refine ⟨(runPass (registrationErrors i) doc).2, ?_⟩
    rw [← submit_of_runPass _ doc e fun c hc => hdec _ (registrationErrors_fields i c hc)]
    simp only [registerFormSubmit, validateRegistrationForm_eq doc i hread]
    rfl
  · intro doc e i hread hdec
    refine ⟨(runPass (loginErrors i) doc).2, ?_⟩
    rw [← submit_of_runPass _ doc e fun c hc => hdec _ (loginErrors_fields i c hc)]
    simp only [loginFormSubmit, validateLoginForm_eq doc i hread]
    rfl
  · intro doc e i hread hdec
    refine ⟨(runPass (addLotErrors i) doc).2, ?_⟩
    rw [← submit_of_runPass _ doc e fun c hc => hdec _ (addLotErrors_fields i c hc)]
    simp only [addLotFormSubmit, validateAddLotForm_eq doc i hread]
    rfl
  · intro e he
    refine ⟨rfl, fun h => ?_⟩
    have := congrArg Event.defaultPrevented h
    rw [he] at this
    cases this
  · intro doc h
    simp [domContentLoaded, mem_ite_single]

/-- Example: a submit event on the sample login page with an empty
password is cancelled. -/
theorem submit_cancels_iff_example :
    readLogin (loginPage ⟨"a", ""⟩) = some ⟨"a", ""⟩ ∧
      (∀ f ∈ loginFields, Decorable f (loginPage ⟨"a", ""⟩)) ∧
      ∃ doc', loginFormSubmit (loginPage ⟨"a", ""⟩) ⟨false⟩ =
        some (doc', if loginErrors ⟨"a", ""⟩ = [] then ⟨false⟩ else Event.preventDefault ⟨false⟩) :=
  ⟨rfl, by decide, submit_cancels_iff.2.1 (loginPage ⟨"a", ""⟩) ⟨false⟩ ⟨"a", ""⟩ rfl (by decide)⟩

/-- C12, evaluated on the code: on the login page whose password control lies
inside an element of class `form-error`, with a username and an empty password,
the submit listener is bound to the form, the validator issues the call
`Password is required`, and the listener returns the event as it was, without
`preventDefault`, where C12 says the submission is cancelled. -/
theorem submit_not_cancelled :
    readLogin (flaggedPasswordPage ⟨"a", ""⟩) = some ⟨"a", ""⟩ ∧
      ("login-form", loginFormSubmit) ∈ domContentLoaded (flaggedPasswordPage ⟨"a", ""⟩) ∧
      loginErrors ⟨"a", ""⟩ = [("password", "Password is required")] ∧
      getElementById "password" (clearFormErrors (flaggedPasswordPage ⟨"a", ""⟩)) = none ∧
      (loginFormSubmit (flaggedPasswordPage ⟨"a", ""⟩) ⟨false⟩).map Prod.snd = some ⟨false⟩ :=
  ⟨rfl,
    by simp [domContentLoaded, flaggedPasswordPage, getElementById, findByIdList, findById],
    by decide, rfl, by decide⟩

/-! ## The effect of `showError` -/

theorem findById_eq_none (fieldId : String) (e : Element) (h1 : e.id ≠ some fieldId)
    (h2 : findByIdList fieldId e.children = none) : findById fieldId e = none := by
  have h := findById_isSome fieldId e
  rw [h2] at h
  simp only [h1, decide_False, Option.isSome_none, Bool.or_self] at h
  cases hf : findById fieldId e with
  | none => rfl
  | some x => rw [hf] at h; cases h

theorem decorateBelow_eq_none (fieldId message : String) (e : Element)
    (h : decorateBelow fieldId message e = none) : findByIdList fieldId e.children = none := by
  have hs := decorateBelow_isSome fieldId message e
  rw [h] at hs
  cases hf : findByIdList fieldId e.children with
  | none => rfl
  | some x => rw [hf] at hs; cases hs

theorem findByIdList_cons_of_none (fieldId : String) (e : Element) (es : List Element)
    (h : findById fieldId e = none) :
    findByIdList fieldId (e :: es) = findByIdList fieldId es := by
  simp only [findByIdList, h]

mutual
theorem decorateBelow_decorated (fieldId message : String) :
    ∀ e e' : Element, decorateBelow fieldId message e = some e' →
      ∃ cs', e' = .node e.id e.classList e.value e.textContent cs' ∧
        Decorated fieldId message e.children cs'
  | .node i c v t cs, e', h => by
    simp only [decorateBelow, Option.map_eq_some'] at h
    obtain ⟨cs', hcs, rfl⟩ := h
    exact ⟨cs', rfl, decorateList_decorated fieldId message cs cs' hcs⟩
theorem decorateList_decorated (fieldId message : String) :
    ∀ es es' : List Element, decorateList fieldId message es = some es' →
      Decorated fieldId message es es'
  | [], _, h => by simp [decorateList] at h
  | e :: es, es', h => by
    simp only [decorateList] at h
    split at h
    · rename_i hid
      cases h
      cases e with
      | node i c v t cs =>
        cases hid
        refine ⟨[], [], es, c, v, t, cs, rfl, by simp, rfl, ?_, rfl⟩
        simp [findByIdList, findById]
    · rename_i hid
      split at h
      · rename_i e' he
        cases h
        obtain ⟨cs', rfl, path, before, after, c, v, t, cs, hdoc, hclear, hbefore, hfind, hdoc'⟩ :=
          decorateBelow_decorated fieldId message e e' he
        refine ⟨⟨[], e.id, e.classList, e.value, e.textContent, es⟩ :: path, before, after,
          c, v, t, cs, ?_, ?_, hbefore, ?_, ?_⟩
        · cases e with
          | node i c0 v0 t0 cs0 =>
            simp only [fillAll, Frame.fill, List.nil_append, Element.id, Element.classList,
              Element.value, Element.textContent]
            rw [← hdoc]
            rfl
        · intro f hf
          rcases List.mem_cons.mp hf with rfl | hf
          · exact ⟨rfl, hid⟩
          · exact hclear f hf
        · cases e with
          | node i c0 v0 t0 cs0 =>
            have hid' : i ≠ some fieldId := hid
            simp only [findByIdList, findById, hid', if_false]
            rw [show findByIdList fieldId cs0 = _ from hfind]
        · simp only [fillAll, Frame.fill, List.nil_append]
          rw [← hdoc']
      · rename_i he
        simp only [Option.map_eq_some'] at h
        obtain ⟨fs, hfs, rfl⟩ := h
        have hnone : findById fieldId e = none :=
          findById_eq_none fieldId e hid (decorateBelow_eq_none fieldId message e he)
        obtain ⟨path, before, after, c, v, t, cs, hdoc, hclear, hbefore, hfind, hdoc'⟩ :=
          decorateList_decorated fieldId message es fs hfs
        cases path with
        | nil =>
          refine ⟨[], e :: before, after, c, v, t, cs, ?_, by simp, ?_, ?_, ?_⟩
          · simp only [fillAll] at hdoc ⊢
            rw [hdoc]; rfl
          · rw [findByIdList_cons_of_none _ _ _ hnone, hbefore]
          · rw [findByIdList_cons_of_none _ _ _ hnone, hfind]
          · simp only [fillAll] at hdoc' ⊢
            rw [hdoc']; rfl
        | cons f path =>
          refine ⟨{ f with before := e :: f.before } :: path, before, after, c, v, t, cs,
            ?_, ?_, hbefore, ?_, ?_⟩
          · simp only [fillAll, Frame.fill] at hdoc ⊢
            rw [hdoc]; rfl
          · intro g hg
            rcases List.mem_cons.mp hg with rfl | hg
            · have hf := hclear f (List.mem_cons_self _ _)
              exact ⟨by
                show findByIdList fieldId (e :: f.before) = none
                rw [findByIdList_cons_of_none _ _ _ hnone, hf.1], hf.2⟩
            · exact hclear g (List.mem_cons_of_mem _ hg)
          · rw [findByIdList_cons_of_none _ _ _ hnone, hfind]
          · simp only [fillAll, Frame.fill] at hdoc' ⊢
            rw [hdoc']; rfl
end

/-- C14: when the document has an element with the identifier, `showError`
changes it in two places only: the first such element, in document order, gets
`is-invalid` added to its class list, and one new node of class
`invalid-feedback form-error` whose text is the message becomes the last child
of that element's parent, after the siblings of the element; every other
element, and everything else about the element itself, stays as it was.  When
no element has the identifier the document is unchanged. -/
theorem showError_frame (fieldId message : String) (doc : Document) :
    (∀ e, getElementById fieldId doc = some e →
      ∃ (path : List Frame) (before after : List Element) (c : List String)
        (v : Option String) (t : String) (cs : List Element),
        e = .node (some fieldId) c v t cs ∧
        doc = fillAll path (before ++ e :: after) ∧
        (∀ f ∈ path, f.Clear fieldId) ∧ findByIdList fieldId before = none ∧
        showError fieldId message doc = fillAll path
          (before ++
            .node (some fieldId) (if "is-invalid" ∈ c then c else c ++ ["is-invalid"]) v t cs ::
            (after ++ [.node none ["invalid-feedback", "form-error"] none message []]))) ∧
    (getElementById fieldId doc = none → showError fieldId message doc = doc) := by
  constructor
  · intro e he
    have hs := decorateList_isSome fieldId message doc
    have he' : findByIdList fieldId doc = some e := he
    rw [he'] at hs
    cases hd : decorateList fieldId message doc with
    | none => rw [hd] at hs; cases hs
    | some doc' =>
      obtain ⟨path, before, after, c, v, t, cs, hdoc, hclear, hbefore, hfind, hdoc'⟩ :=
        decorateList_decorated fieldId message doc doc' hd
      have hee : e = .node (some fieldId) c v t cs := by
        rw [he'] at hfind
        exact Option.some.inj hfind
      refine ⟨path, before, after, c, v, t, cs, hee, ?_, hclear, hbefore, ?_⟩
      · rw [hee]; exact hdoc
      · simp only [showError, he, hd, Option.getD_some]
        exact hdoc'
  · intro h
    simp only [showError, h]

/-- Witness of C14: `showError` on the password control of the sample login
page without decorations. -/
theorem showError_frame_witness :
    getElementById "password" (plainLoginPage ⟨"a", ""⟩) =
        some (control "password" "" ["form-control"]) ∧
      (showError "password" "Password is required" (plainLoginPage ⟨"a", ""⟩) =
          [.node (some "login-form") [] none ""
            [formGroup [control "username" "a" ["form-control"]],
             formGroup [control "password" "" ["form-control", "is-invalid"],
               errorDiv "Password is required"]]] ∧
        ∃ (path : List Frame) (before after : List Element) (c : List String)
          (v : Option String) (t : String) (cs : List Element),
          control "password" "" ["form-control"] = .node (some "password") c v t cs ∧
          plainLoginPage ⟨"a", ""⟩ =
            fillAll path (before ++ control "password" "" ["form-control"] :: after) ∧
          (∀ f ∈ path, f.Clear "password") ∧ findByIdList "password" before = none ∧
          showError "password" "Password is required" (plainLoginPage ⟨"a", ""⟩) = fillAll path
            (before ++
              .node (some "password") (if "is-invalid" ∈ c then c else c ++ ["is-invalid"]) v t cs ::
              (after ++
                [.node none ["invalid-feedback", "form-error"] none "Password is required" []]))) :=
  ⟨rfl, rfl,
    (showError_frame "password" "Password is required" (plainLoginPage ⟨"a", ""⟩)).1 _ rfl⟩

/-! ## Clearing and decorating -/

theorem selectClass_eq_nil (cls : String) (e : Element) :
    selectClass cls e = [] ↔ cls ∉ e.classList ∧ selectClassList cls e.children = [] := by
  cases e with
  | node i c v t cs =>
    simp only [selectClass, Element.classList, Element.children]
    by_cases h : cls ∈ c <;> simp [h]

theorem selectClassList_cons_eq_nil (cls : String) (e : Element) (es : List Element) :
    selectClassList cls (e :: es) = [] ↔ selectClass cls e = [] ∧ selectClassList cls es = [] := by
  simp [selectClassList]

theorem removeClassList_append (cls : String) (es fs : List Element) :
    removeClassList cls (es ++ fs) = removeClassList cls es ++ removeClassList cls fs := by
  induction es with
  | nil => simp [removeClassList]
  | cons e es ih => simp [removeClassList, ih]

theorem detachList_append (cls : String) (es fs : List Element) :
    detachList cls (es ++ fs) = detachList cls es ++ detachList cls fs := by
  induction es with
  | nil => simp [detachList]
  | cons e es ih =>
    simp only [List.cons_append, detachList]
    split <;> simp [ih]

mutual
theorem selectClass_removeClass (cls : String) :
    ∀ e : Element, selectClass cls (removeClass cls e) = []
  | .node i c v t cs => by
    simp only [removeClass, selectClass]
    have h : cls ∉ c.filter (· ≠ cls) := by simp
    rw [if_neg h]
    exact selectClassList_removeClassList cls cs
theorem selectClassList_removeClassList (cls : String) :
    ∀ es : List Element, selectClassList cls (removeClassList cls es) = []
  | [] => rfl
  | e :: es => by
    simp only [removeClassList, selectClassList, selectClass_removeClass cls e,
      selectClassList_removeClassList cls es, List.append_nil]
end

mutual
theorem selectClass_detachBelow_of_nil (cls other : String) :
    ∀ e : Element, selectClass cls e = [] → selectClass cls (detachBelow other e) = []
  | .node i c v t cs, h => by
    rw [selectClass_eq_nil] at h ⊢
    simp only [detachBelow, Element.classList, Element.children] at h ⊢
    exact ⟨h.1, selectClassList_detachList_of_nil cls other cs h.2⟩
theorem selectClassList_detachList_of_nil (cls other : String) :
    ∀ es : List Element, selectClassList cls es = [] →
      selectClassList cls (detachList other es) = []
  | [], _ => rfl
  | e :: es, h => by
    rw [selectClassList_cons_eq_nil] at h
    simp only [detachList]
    split
    · exact selectClassList_detachList_of_nil cls other es h.2
    · rw [selectClassList_cons_eq_nil]
      exact ⟨selectClass_detachBelow_of_nil cls other e h.1,
        selectClassList_detachList_of_nil cls other es h.2⟩
end

mutual
theorem removeClass_of_nil (cls : String) :
    ∀ e : Element, selectClass cls e = [] → removeClass cls e = e
  | .node i c v t cs, h => by
    rw [selectClass_eq_nil] at h
    simp only [Element.classList, Element.children] at h
    have hc : c.filter (· ≠ cls) = c := by
      rw [List.filter_eq_self]
      intro x hx
      simp only [ne_eq, decide_eq_true_eq]
      rintro rfl
      exact h.1 hx
    simp only [removeClass, hc, removeClassList_of_nil cls cs h.2]
theorem removeClassList_of_nil (cls : String) :
    ∀ es : List Element, selectClassList cls es = [] → removeClassList cls es = es
  | [], _ => rfl
  | e :: es, h => by
    rw [selectClassList_cons_eq_nil] at h
    simp only [removeClassList, removeClass_of_nil cls e h.1, removeClassList_of_nil cls es h.2]
end

mutual
theorem detachBelow_of_nil (cls : String) :
    ∀ e : Element, selectClassList cls e.children = [] → detachBelow cls e = e
  | .node i c v t cs, h => by
    simp only [detachBelow, detachList_of_nil cls cs h]
theorem detachList_of_nil (cls : String) :
    ∀ es : List Element, selectClassList cls es = [] → detachList cls es = es
  | [], _ => rfl
  | e :: es, h => by
    rw [selectClassList_cons_eq_nil, selectClass_eq_nil] at h
    simp only [detachList, h.1.1, if_false, detachBelow_of_nil cls e h.1.2,
      detachList_of_nil cls es h.2]
end

theorem markedFields_clearFormErrors (doc : Document) :
    markedFields (clearFormErrors doc) = [] := by
  unfold markedFields querySelectorAll clearFormErrors
  rw [selectClassList_detachList_of_nil _ _ _ (selectClassList_removeClassList _ _)]
  rfl

theorem shownMessages_clearFormErrors (doc : Document) :
    shownMessages (clearFormErrors doc) = [] := by
  unfold shownMessages
  rw [querySelectorAll_clearFormErrors]
  rfl

theorem clearFormErrors_clearFormErrors (doc : Document) :
    clearFormErrors (clearFormErrors doc) = clearFormErrors doc := by
  have h1 : selectClassList "is-invalid" (clearFormErrors doc) = [] :=
    selectClassList_detachList_of_nil _ _ _ (selectClassList_removeClassList _ _)
  have h2 : selectClassList "form-error" (clearFormErrors doc) = [] :=
    querySelectorAll_clearFormErrors doc
  show detachList "form-error" (removeClassList "is-invalid" (clearFormErrors doc)) = _
  rw [removeClassList_of_nil _ _ h1, detachList_of_nil _ _ h2]

theorem removeClass_addClass (e : Element) :
    removeClass "is-invalid" (e.addClass "is-invalid") = removeClass "is-invalid" e := by
  cases e with
  | node i c v t cs =>
    simp only [Element.addClass, removeClass]
    split
    · rfl
    · simp [List.filter_append]

mutual
theorem clear_decorateBelow (fieldId message : String) :
    ∀ e e' : Element, decorateBelow fieldId message e = some e' →
      (removeClass "is-invalid" e').classList = (removeClass "is-invalid" e).classList ∧
      detachBelow "form-error" (removeClass "is-invalid" e') =
        detachBelow "form-error" (removeClass "is-invalid" e)
  | .node i c v t cs, e', h => by
    simp only [decorateBelow, Option.map_eq_some'] at h
    obtain ⟨cs', hcs, rfl⟩ := h
    simp only [removeClass, detachBelow, Element.classList,
      clear_decorateList fieldId message cs cs' hcs, and_self]
theorem clear_decorateList (fieldId message : String) :
    ∀ es es' : List Element, decorateList fieldId message es = some es' →
      detachList "form-error" (removeClassList "is-invalid" es') =
        detachList "form-error" (removeClassList "is-invalid" es)
  | [], _, h => by simp [decorateList] at h
  | e :: es, es', h => by
    simp only [decorateList] at h
    split at h
    · cases h
      have hdiv : detachList "form-error"
          (removeClassList "is-invalid" [errorDiv message]) = [] := by
        simp [removeClassList, removeClass, errorDiv, detachList, Element.classList]
      rw [show e.addClass "is-invalid" :: es ++ [errorDiv message] =
        (e.addClass "is-invalid" :: es) ++ [errorDiv message] from rfl,
        removeClassList_append, detachList_append, hdiv, List.append_nil]
      simp only [removeClassList, removeClass_addClass]
    · split at h
      · rename_i e' he
        cases h
        obtain ⟨h1, h2⟩ := clear_decorateBelow fieldId message e e' he
        simp only [removeClassList, detachList, h1, h2]
      · simp only [Option.map_eq_some'] at h
        obtain ⟨fs, hfs, rfl⟩ := h
        simp only [removeClassList, detachList, clear_decorateList fieldId message es fs hfs]
end

theorem clearFormErrors_showError (fieldId message : String) (doc : Document) :
    clearFormErrors (showError fieldId message doc) = clearFormErrors doc := by
  unfold showError
  cases getElementById fieldId doc with
  | none => rfl
  | some x =>
    cases hd : decorateList fieldId message doc with
    | none => rfl
    | some doc' => exact clear_decorateList fieldId message doc doc' hd

theorem clearFormErrors_showErrors (calls : List (String × String)) (doc : Document) :
    clearFormErrors (showErrors calls doc) = clearFormErrors doc := by
  induction calls generalizing doc with
  | nil => rfl
  | cons c cs ih =>
    show clearFormErrors (showErrors cs (showError c.1 c.2 doc)) = _
    rw [ih, clearFormErrors_showError]

theorem runPass_runPass (calls : List (String × String)) (doc : Document) :
    runPass calls (runPass calls doc).2 = runPass calls doc := by
  simp only [runPass, clearFormErrors_showErrors, clearFormErrors_clearFormErrors]

/-! ## The decorations after a pass -/

theorem selectClass_addClass_text (e : Element) :
    (selectClass "form-error" (e.addClass "is-invalid")).map Element.textContent =
      (selectClass "form-error" e).map Element.textContent := by
  cases e with
  | node i c v t cs =>
    have h := addClass_invalid_mem (.node i c v t cs)
    simp only [Element.addClass, Element.classList] at h
    simp only [Element.addClass, selectClass]
    by_cases hc : "form-error" ∈ c
    · rw [if_pos (h.mpr hc), if_pos hc]
      rfl
    · rw [if_neg (fun hh => hc (h.mp hh)), if_neg hc]

mutual
theorem texts_decorateBelow (fieldId message : String) :
    ∀ e e' : Element, decorateBelow fieldId message e = some e' →
      ((selectClass "form-error" e').map Element.textContent).Perm
        (message :: (selectClass "form-error" e).map Element.textContent)
  | .node i c v t cs, e', h => by
    simp only [decorateBelow, Option.map_eq_some'] at h
    obtain ⟨cs', hcs, rfl⟩ := h
    have ih := texts_decorateList fieldId message cs cs' hcs
    simp only [selectClass]
    by_cases hc : "form-error" ∈ c
    · simp only [hc, if_true, List.map_cons, Element.textContent]
      exact (List.Perm.cons t ih).trans (List.Perm.swap message t _)
    · simp only [hc, if_false]
      exact ih
theorem texts_decorateList (fieldId message : String) :
    ∀ es es' : List Element, decorateList fieldId message es = some es' →
      ((selectClassList "form-error" es').map Element.textContent).Perm
        (message :: (selectClassList "form-error" es).map Element.textContent)
  | [], _, h => by simp [decorateList] at h
  | e :: es, es', h => by
    simp only [decorateList] at h
    split at h
    · cases h
      have hdiv : (selectClassList "form-error" [errorDiv message]).map Element.textContent =
          [message] := by
        simp [selectClassList, selectClass, errorDiv, Element.textContent]
      rw [show e.addClass "is-invalid" :: es ++ [errorDiv message] =
        (e.addClass "is-invalid" :: es) ++ [errorDiv message] from rfl,
        selectClassList_append, List.map_append, hdiv]
      simp only [selectClassList, List.map_append, selectClass_addClass_text]
      rw [← List.map_append]
      exact List.perm_append_comm
    · split at h
      · rename_i e' he
        cases h
        simp only [selectClassList, List.map_append]
        exact List.Perm.append_right _ (texts_decorateBelow fieldId message e e' he)
      · simp only [Option.map_eq_some'] at h
        obtain ⟨fs, hfs, rfl⟩ := h
        simp only [selectClassList, List.map_append]
        exact (List.Perm.append_left _ (texts_decorateList fieldId message es fs hfs)).trans
          List.perm_middle
end

mutual
theorem marks_decorateBelow (fieldId message : String) :
    ∀ e e' : Element, decorateBelow fieldId message e = some e' →
      some fieldId ∉ (selectClassList "is-invalid" e.children).map Element.id →
      ((selectClass "is-invalid" e').map Element.id).Perm
        (some fieldId :: (selectClass "is-invalid" e).map Element.id)
  | .node i c v t cs, e', h, hn => by
    simp only [decorateBelow, Option.map_eq_some'] at h
    obtain ⟨cs', hcs, rfl⟩ := h
    have ih := marks_decorateList fieldId message cs cs' hcs hn
    simp only [selectClass]
    by_cases hc : "is-invalid" ∈ c
    · simp only [hc, if_true, List.map_cons, Element.id]
      exact (List.Perm.cons i ih).trans (List.Perm.swap (some fieldId) i _)
    · simp only [hc, if_false]
      exact ih
theorem marks_decorateList (fieldId message : String) :
    ∀ es es' : List Element, decorateList fieldId message es = some es' →
      some fieldId ∉ (selectClassList "is-invalid" es).map Element.id →
      ((selectClassList "is-invalid" es').map Element.id).Perm
        (some fieldId :: (selectClassList "is-invalid" es).map Element.id)
  | [], _, h, _ => by simp [decorateList] at h
  | e :: es, es', h, hn => by
    simp only [selectClassList, List.map_append, List.mem_append, not_or] at hn
    simp only [decorateList] at h
    split at h
    · rename_i hid
      cases h
      cases e with
      | node i c v t cs =>
        cases hid
        have hc : "is-invalid" ∉ c := by
          intro hc
          apply hn.1
          simp [selectClass, hc, Element.id]
        have hdiv : selectClassList "is-invalid" [errorDiv message] = [] := by
          simp [selectClassList, selectClass, errorDiv]
        rw [show Element.addClass "is-invalid" (.node (some fieldId) c v t cs) :: es ++
            [errorDiv message] =
          (Element.addClass "is-invalid" (.node (some fieldId) c v t cs) :: es) ++
            [errorDiv message] from rfl,
          selectClassList_append, hdiv, List.append_nil]
        simp [selectClassList, selectClass, Element.addClass, hc, Element.id]
    · split at h
      · rename_i e' he
        cases h
        have hsub : some fieldId ∉ (selectClassList "is-invalid" e.children).map Element.id := by
          intro hin
          apply hn.1
          cases e with
          | node i c v t cs =>
            simp only [selectClass, Element.children] at hin ⊢
            split
            · exact List.mem_map.mpr
                (by
                  obtain ⟨x, hx, hxe⟩ := List.mem_map.mp hin
                  exact ⟨x, List.mem_cons_of_mem _ hx, hxe⟩)
            · exact hin
        simp only [selectClassList, List.map_append]
        exact List.Perm.append_right _ (marks_decorateBelow fieldId message e e' he hsub)
      · simp only [Option.map_eq_some'] at h
        obtain ⟨fs, hfs, rfl⟩ := h
        simp only [selectClassList, List.map_append]
        exact (List.Perm.append_left _
          (marks_decorateList fieldId message es fs hfs hn.2)).trans List.perm_middle
end

theorem shownMessages_showError (fieldId message : String) (doc : Document)
    (h : (getElementById fieldId doc).isSome) :
    (shownMessages (showError fieldId message doc)).Perm (message :: shownMessages doc) := by
  have hs := decorateList_isSome fieldId message doc
  unfold getElementById at h
  rw [h] at hs
  cases hd : decorateList fieldId message doc with
  | none => rw [hd] at hs; cases hs
  | some doc' =>
    cases hg : findByIdList fieldId doc with
    | none => rw [hg] at h; cases h
    | some x =>
      simp only [shownMessages, querySelectorAll, showError, getElementById, hg, hd,
        Option.getD_some]
      exact texts_decorateList fieldId message doc doc' hd

theorem markedFields_showError (fieldId message : String) (doc : Document)
    (h : (getElementById fieldId doc).isSome) (hn : some fieldId ∉ markedFields doc) :
    (markedFields (showError fieldId message doc)).Perm (some fieldId :: markedFields doc) := by
  have hs := decorateList_isSome fieldId message doc
  unfold getElementById at h
  rw [h] at hs
  cases hd : decorateList fieldId message doc with
  | none => rw [hd] at hs; cases hs
  | some doc' =>
    cases hg : findByIdList fieldId doc with
    | none => rw [hg] at h; cases h
    | some x =>
      simp only [markedFields, querySelectorAll, showError, getElementById, hg, hd,
        Option.getD_some]
      exact marks_decorateList fieldId message doc doc' hd hn

theorem shownMessages_showErrors (calls : List (String × String)) (doc : Document)
    (h : ∀ c ∈ calls, (getElementById c.1 doc).isSome) :
    (shownMessages (showErrors calls doc)).Perm (calls.map Prod.snd ++ shownMessages doc) := by
  induction calls generalizing doc with
  | nil => exact List.Perm.refl _
  | cons c cs ih =>
    show (shownMessages (showErrors cs (showError c.1 c.2 doc))).Perm _
    have hcs : ∀ x ∈ cs, (getElementById x.1 (showError c.1 c.2 doc)).isSome := by
      intro x hx
      rw [getElementById_showError]
      exact h x (List.mem_cons_of_mem _ hx)
    refine (ih _ hcs).trans ?_
    refine (List.Perm.append_left _
      (shownMessages_showError c.1 c.2 doc (h c (List.mem_cons_self _ _)))).trans ?_
    simp only [List.map_cons, List.cons_append]
    exact List.perm_middle

theorem markedFields_showErrors (calls : List (String × String)) (doc : Document)
    (h : ∀ c ∈ calls, (getElementById c.1 doc).isSome)
    (hnodup : (calls.map Prod.fst).Nodup) (hn : ∀ c ∈ calls, some c.1 ∉ markedFields doc) :
    (markedFields (showErrors calls doc)).Perm
      ((calls.map fun c => some c.1) ++ markedFields doc) := by
  induction calls generalizing doc with
  | nil => exact List.Perm.refl _
  | cons c cs ih =>
    show (markedFields (showErrors cs (showError c.1 c.2 doc))).Perm _
    have hc := markedFields_showError c.1 c.2 doc (h c (List.mem_cons_self _ _))
      (hn c (List.mem_cons_self _ _))
    simp only [List.map_cons, List.nodup_cons] at hnodup
    have hcs : ∀ x ∈ cs, (getElementById x.1 (showError c.1 c.2 doc)).isSome := by
      intro x hx
      rw [getElementById_showError]
      exact h x (List.mem_cons_of_mem _ hx)
    have hn' : ∀ x ∈ cs, some x.1 ∉ markedFields (showError c.1 c.2 doc) := by
      intro x hx hin
      rcases List.mem_cons.mp (hc.subset hin) with heq | hmem
      · apply hnodup.1
        rw [← Option.some.inj heq]
        exact List.mem_map_of_mem _ hx
      · exact hn x (List.mem_cons_of_mem _ hx) hmem
    refine (ih _ hcs hnodup.2 hn').trans ?_
    refine (List.Perm.append_left _ hc).trans ?_
    simp only [List.map_cons, List.cons_append]
    exact List.perm_middle

theorem runPass_decorations (calls : List (String × String)) (doc : Document)
    (h : ∀ c ∈ calls, Decorable c.1 doc) (hnodup : (calls.map Prod.fst).Nodup) :
    (shownMessages (runPass calls doc).2).Perm (calls.map Prod.snd) ∧
      (markedFields (runPass calls doc).2).Perm (calls.map fun c => some c.1) := by
  constructor
  · have := shownMessages_showErrors calls (clearFormErrors doc) h
    rwa [shownMessages_clearFormErrors, List.append_nil] at this
  · have := markedFields_showErrors calls (clearFormErrors doc) h hnodup
      (by rw [markedFields_clearFormErrors]; intro c _ hc; cases hc)
    rwa [markedFields_clearFormErrors, List.append_nil] at this

theorem registrationErrors_nodup (i : RegistrationInput) :
    ((registrationErrors i).map Prod.fst).Nodup := by
  unfold registrationErrors
  split_ifs <;> decide

theorem loginErrors_nodup (i : LoginInput) : ((loginErrors i).map Prod.fst).Nodup := by
  unfold loginErrors
  split_ifs <;> decide

theorem addLotErrors_nodup (i : AddLotInput) : ((addLotErrors i).map Prod.fst).Nodup := by
  unfold addLotErrors
  split_ifs <;> decide

theorem pass_twice (validate : Document → Option (Bool × Document))
    (calls : List (String × String)) (doc : Document)
    (h1 : validate doc = some (runPass calls doc))
    (h2 : validate (runPass calls doc).2 = some (runPass calls (runPass calls doc).2)) :
    validate (runPass calls doc).2 = validate doc := by
  rw [h1, h2, runPass_runPass]

/-- On a document whose fields hold the record read and are
still found by `showError` after `clearFormErrors`, whatever `is-invalid` marks
and `.form-error` nodes it carried before: for each of the three validators the
messages shown after the pass are those of the `showError` calls of this pass
and the elements marked `is-invalid` are the fields of these calls, no more and
no less (up to order); and a second pass on the document left by the first,
which reads the same record, returns the same boolean and leaves the same
document. -/
theorem decorations_recomputed :
    (∀ (doc : Document) (i : RegistrationInput), readRegistration doc = some i →
      (∀ f ∈ registrationFields, Decorable f doc) →
      ∃ b doc', validateRegistrationForm doc = some (b, doc') ∧
        (shownMessages doc').Perm ((registrationErrors i).map Prod.snd) ∧
        (markedFields doc').Perm ((registrationErrors i).map fun c => some c.1)) ∧
    (∀ (doc : Document) (i : LoginInput), readLogin doc = some i →
      (∀ f ∈ loginFields, Decorable f doc) →
      ∃ b doc', validateLoginForm doc = some (b, doc') ∧
        (shownMessages doc').Perm ((loginErrors i).map Prod.snd) ∧
        (markedFields doc').Perm ((loginErrors i).map fun c => some c.1)) ∧
    (∀ (doc : Document) (i : AddLotInput), readAddLot doc = some i →
      (∀ f ∈ addLotFields, Decorable f doc) →
      ∃ b doc', validateAddLotForm doc = some (b, doc') ∧
        (shownMessages doc').Perm ((addLotErrors i).map Prod.snd) ∧
        (markedFields doc').Perm ((addLotErrors i).map fun c => some c.1)) ∧
    (∀ (doc : Document) (i : RegistrationInput), readRegistration doc = some i →
      readRegistration (runPass (registrationErrors i) doc).2 = some i →
      validateRegistrationForm (runPass (registrationErrors i) doc).2 =
        validateRegistrationForm doc) ∧
    (∀ (doc : Document) (i : LoginInput), readLogin doc = some i →
      readLogin (runPass (loginErrors i) doc).2 = some i →
      validateLoginForm (runPass (loginErrors i) doc).2 = validateLoginForm doc) ∧
    (∀ (doc : Document) (i : AddLotInput), readAddLot doc = some i →
      readAddLot (runPass (addLotErrors i) doc).2 = some i →
      validateAddLotForm (runPass (addLotErrors i) doc).2 = validateAddLotForm doc) := by
  refine ⟨?_, ?_, ?_, ?_, ?_, ?_⟩
  · intro doc i hread hdec
    have h := runPass_decorations (registrationErrors i) doc
      (fun c hc => hdec _ (registrationErrors_fields i c hc)) (registrationErrors_nodup i)
    refine ⟨(runPass (registrationErrors i) doc).1, (runPass (registrationErrors i) doc).2,
      ?_, h.1, h.2⟩
    rw [validateRegistrationForm_eq doc i hread]
  · intro doc i hread hdec
    have h := runPass_decorations (loginErrors i) doc
      (fun c hc => hdec _ (loginErrors_fields i c hc)) (loginErrors_nodup i)
    refine ⟨(runPass (loginErrors i) doc).1, (runPass (loginErrors i) doc).2, ?_, h.1, h.2⟩
    rw [validateLoginForm_eq doc i hread]
  · intro doc i hread hdec
    have h := runPass_decorations (addLotErrors i) doc
      (fun c hc => hdec _ (addLotErrors_fields i c hc)) (addLotErrors_nodup i)
    refine ⟨(runPass (addLotErrors i) doc).1, (runPass (addLotErrors i) doc).2, ?_, h.1, h.2⟩
    rw [validateAddLotForm_eq doc i hread]
  · intro doc i h1 h2
    exact pass_twice validateRegistrationForm _ doc (validateRegistrationForm_eq doc i h1)
      (validateRegistrationForm_eq _ i h2)
  · intro doc i h1 h2
    exact pass_twice validateLoginForm _ doc (validateLoginForm_eq doc i h1)
      (validateLoginForm_eq _ i h2)
  · intro doc i h1 h2
    exact pass_twice validateAddLotForm _ doc (validateAddLotForm_eq doc i h1)
      (validateAddLotForm_eq _ i h2)

/-- Example: the sample login page carries the message of an earlier pass on the
password; a pass with a blank username and a password shows the username
message only, and a second pass on the document it leaves gives the same
result. -/
theorem decorations_recomputed_example :
    (readLogin (loginPage ⟨" ", "b"⟩) = some ⟨" ", "b"⟩ ∧
      (∀ f ∈ loginFields, Decorable f (loginPage ⟨" ", "b"⟩)) ∧
      ∃ b doc', validateLoginForm (loginPage ⟨" ", "b"⟩) = some (b, doc') ∧
        (shownMessages doc').Perm ((loginErrors ⟨" ", "b"⟩).map Prod.snd) ∧
        (markedFields doc').Perm ((loginErrors ⟨" ", "b"⟩).map fun c => some c.1)) ∧
    (readLogin (runPass (loginErrors ⟨" ", "b"⟩) (loginPage ⟨" ", "b"⟩)).2 = some ⟨" ", "b"⟩ ∧
      validateLoginForm (runPass (loginErrors ⟨" ", "b"⟩) (loginPage ⟨" ", "b"⟩)).2 =
        validateLoginForm (loginPage ⟨" ", "b"⟩)) :=
  ⟨⟨rfl, by decide,
      decorations_recomputed.2.1 (loginPage ⟨" ", "b"⟩) ⟨" ", "b"⟩ rfl (by decide)⟩,
    rfl, decorations_recomputed.2.2.2.2.1 (loginPage ⟨" ", "b"⟩) ⟨" ", "b"⟩ rfl rfl⟩

/-- C11, evaluated on the code: on the login page whose password control lies
inside an element of class `form-error`, with a username and an empty password,
the record is read and the call `Password is required` is issued, yet after the
pass no message is shown and no element is marked `is-invalid`:
`clearFormErrors` has detached the password control, and the validator returns
`true`. -/
theorem decorations_lost_when_detached :
    readLogin (flaggedPasswordPage ⟨"a", ""⟩) = some ⟨"a", ""⟩ ∧
      loginErrors ⟨"a", ""⟩ = [("password", "Password is required")] ∧
      getElementById "password" (clearFormErrors (flaggedPasswordPage ⟨"a", ""⟩)) = none ∧
      (validateLoginForm (flaggedPasswordPage ⟨"a", ""⟩)).map
          (fun r => (r.1, shownMessages r.2, markedFields r.2)) =
        some (true, [], []) :=
  ⟨rfl, by decide, rfl, by decide⟩

end Validation
